import Mathlib

/-!
Verification development for the geoclaw-4.x raster / AMR-frame codecs.

Shallow embedding of `src/python/dclaw/topotools.py` and
`src/python/pyclaw/io/ascii.py`.  Python floats are modelled as exact
rationals (`ℚ`); text files are modelled as lists of lines, each line a
list of whitespace-separated tokens (strings for the raster codec, whose
parsing is string-sensitive; rationals for the AMR codec, whose numeric
text layer is abstracted by an explicit scalar re-encode function).

A Python computation that can raise an uncaught exception or fail to
terminate is modelled as `Py α := Option (Except PyErr α)`, with `none`
marking divergence (an infinite loop) and `some (.error e)` an uncaught
exception.
-/

namespace GeoClaw

/-- Kinds of uncaught Python exceptions that the embedded code can raise. -/
inductive PyErr where
  | nameError
  | indexError
  | typeError
  | valueError
  | attributeError
  | notImplementedError
  | exception
deriving DecidableEq, Repr

instance {ε α : Type} [DecidableEq ε] [DecidableEq α] : DecidableEq (Except ε α) :=
  fun a b =>
    match a, b with
    | .ok x, .ok y =>
      if h : x = y then isTrue (by rw [h]) else isFalse (by simp [h])
    | .error e, .error f =>
      if h : e = f then isTrue (by rw [h]) else isFalse (by simp [h])
    | .ok _, .error _ => isFalse (by simp)
    | .error _, .ok _ => isFalse (by simp)

/-- Result of an embedded Python fragment: `none` models nontermination,
`some (.error e)` an uncaught exception, `some (.ok a)` normal return. -/
abbrev Py (α : Type) : Type := Option (Except PyErr α)

/-- Normal return. -/
def pyPure {α : Type} (a : α) : Py α := some (Except.ok a)

/-- Raise an exception. -/
def pyThrow {α : Type} (e : PyErr) : Py α := some (Except.error e)

/-- Marker for a computation that never terminates. -/
def pyHang {α : Type} : Py α := none

/-- Sequencing: exceptions and divergence propagate. -/
def pyBind {α β : Type} (x : Py α) (f : α → Py β) : Py β :=
  match x with
  | none => none
  | some (Except.error e) => some (Except.error e)
  | some (Except.ok a) => f a

@[simp] theorem pyBind_pure {α β : Type} (a : α) (f : α → Py β) :
    pyBind (pyPure a) f = f a := rfl

@[simp] theorem pyBind_throw {α β : Type} (e : PyErr) (f : α → Py β) :
    pyBind (pyThrow e) f = pyThrow e := rfl

@[simp] theorem pyBind_hang {α β : Type} (f : α → Py β) :
    pyBind (pyHang : Py α) f = pyHang := rfl

@[simp] theorem pyBind_some_ok {α β : Type} (a : α) (f : α → Py β) :
    pyBind (some (Except.ok a)) f = f a := rfl

@[simp] theorem pyBind_some_error {α β : Type} (e : PyErr) (f : α → Py β) :
    pyBind (some (Except.error e)) f = some (Except.error e) := rfl

@[simp] theorem pyBind_none {α β : Type} (f : α → Py β) :
    pyBind (none : Py α) f = none := rfl

/-- Python `int(q)` on a float: truncation toward zero. -/
def pyTrunc (q : ℚ) : ℤ := if 0 ≤ q then Int.floor q else -(Int.floor (-q))

/-- Python list indexing `l[i]` with negative indices counting from the end.
Out-of-range access (which raises `IndexError` in Python) returns the default;
every use below is guarded so that this case does not arise. -/
def pyGet {α : Type} (l : List α) (i : ℤ) (d : α) : α :=
  if 0 ≤ i then l.getD i.toNat d else l.getD (l.length - (-i).toNat) d

/-- A 2-D numpy array of floats, row-major. -/
abbrev Mat : Type := List (List ℚ)

/-- Element access `A[i, j]` with Python index semantics on both axes. -/
def mget (A : Mat) (i j : ℤ) : ℚ := pyGet (pyGet A i []) j 0

/-! ## Numeric token parsing (Python `int(...)` / `float(...)`) -/

/-- Value of a digit string (most significant first); assumes digits only. -/
def natOfDigits (cs : List Char) : ℕ :=
  cs.foldl (fun a c => a * 10 + (c.toNat - 48)) 0

/-- Whether every character is an ASCII digit. -/
def digitsOnly (cs : List Char) : Bool := cs.all Char.isDigit

/-- Python `int(s)` on a plain optionally-signed digit string; `none` models
`ValueError` on any other input. -/
def parsePyInt (s : String) : Option ℤ :=
  match s.toList with
  | '-' :: cs => if digitsOnly cs ∧ cs ≠ [] then some (-(natOfDigits cs : ℤ)) else none
  | '+' :: cs => if digitsOnly cs ∧ cs ≠ [] then some ((natOfDigits cs : ℤ)) else none
  | cs => if digitsOnly cs ∧ cs ≠ [] then some ((natOfDigits cs : ℤ)) else none

/-- Split a character list at the first character satisfying `p`; returns the
prefix and, when a split character was found, the remainder after it. -/
def splitAtChar (p : Char → Bool) : List Char → List Char × Option (List Char)
  | [] => ([], none)
  | c :: rest =>
    if p c then ([], some rest)
    else
      let r := splitAtChar p rest
      (c :: r.1, r.2)

/-- Python `float(s)` on a decimal literal `[sign] digits [. digits] [e/E int]`.
`none` models `ValueError`.  (The special spellings `nan` / `inf`, which have
no exact rational value, are outside the subset exercised here.) -/
def parsePyFloat (s : String) : Option ℚ :=
  let signed : List Char × ℚ :=
    match s.toList with
    | '-' :: r => (r, -1)
    | '+' :: r => (r, 1)
    | r => (r, 1)
  let m := splitAtChar (fun c => c = 'e' ∨ c = 'E') signed.1
  let ip := (splitAtChar (fun c => c = '.') m.1).1
  let fp := ((splitAtChar (fun c => c = '.') m.1).2).getD []
  if digitsOnly ip ∧ digitsOnly fp ∧ (ip ≠ [] ∨ fp ≠ []) then
    let base : ℚ := (natOfDigits ip : ℚ) + (natOfDigits fp : ℚ) / (10 : ℚ) ^ fp.length
    match m.2 with
    | none => some (signed.2 * base)
    | some es =>
      match parsePyInt (String.mk es) with
      | some e => some (signed.2 * base * (10 : ℚ) ^ (e : ℤ))
      | none => none
  else none

/-! ## dclaw.iotools helpers (the `iotools` module is not part of `src/`) -/

/-- Modelled from the spec: `iotools.convertd2e` is missing from `src/`; per
the spec the raster text layer accepts Fortran-style exponents, which this
helper normalises by rewriting `d`/`D` exponent markers to `e`/`E` before
numeric parsing.  It is a pure character map on one token. -/
def convertd2e (s : String) : String :=
  String.mk (s.toList.map (fun c => if c = 'd' then 'e' else if c = 'D' then 'E' else c))

/-- Modelled from the spec: `iotools.datafile2array` is missing from `src/`;
per the spec (§6, topotype 1) it reads whitespace-separated numeric rows of a
file into a 2-D float array, one row per line. -/
def datafile2array (file : List (List String)) : Py Mat :=
  let rows := file.map (fun l => l.map (fun t => parsePyFloat (convertd2e t)))
  if rows.all (fun r => r.all Option.isSome) then
    pyPure (rows.map (fun r => r.map (fun o => o.getD 0)))
  else pyThrow PyErr.valueError

/-! ## Header codec (`topoheaderread`, topotools.py lines 448-521) -/

/-- A Python value as stored in the `topoheader` dictionary: the initial
entries are numbers, the parse loop stores raw strings, and the final
conversion pass turns strings into ints or floats. -/
inductive PyVal where
  | pint (n : ℤ)
  | pfloat (q : ℚ)
  | pstr (s : String)
deriving DecidableEq, Repr

/-- Numeric value of a header entry (used in arithmetic, where Python accepts
both ints and floats).  Strings never reach arithmetic. -/
def PyVal.toQ : PyVal → ℚ
  | .pint n => (n : ℚ)
  | .pfloat q => q
  | .pstr _ => 0

/-- Using a header entry where Python requires an `int` (`range`, `reshape`):
a float or string raises `TypeError`. -/
def PyVal.toIndex : PyVal → Py ℤ
  | .pint n => pyPure n
  | _ => pyThrow PyErr.typeError

/-- The `topoheader` dictionary: fixed six keys, listed in insertion order
`ncols, nrows, xll, yll, cellsize, nodata_value` (topotools.py 463-470). -/
structure HMap where
  ncols : PyVal
  nrows : PyVal
  xll : PyVal
  yll : PyVal
  cellsize : PyVal
  nodata_value : PyVal
deriving DecidableEq, Repr

/-- Initial dictionary contents (topotools.py 463-470). -/
def HMap.init : HMap :=
  ⟨.pint 0, .pint 0, .pfloat 0, .pfloat 0, .pfloat 0, .pint 0⟩

/-- Store into the dictionary under a canonical key name. -/
def HMap.set (h : HMap) (key : String) (v : PyVal) : HMap :=
  if key = "ncols" then { h with ncols := v }
  else if key = "nrows" then { h with nrows := v }
  else if key = "xll" then { h with xll := v }
  else if key = "yll" then { h with yll := v }
  else if key = "cellsize" then { h with cellsize := v }
  else if key = "nodata_value" then { h with nodata_value := v }
  else h

/-- The synonym table `keymap` (topotools.py 473-486): recognised key token
(lower-cased) to canonical key. -/
def keymap : List (String × String) :=
  [("ncols", "ncols"), ("nrows", "nrows"), ("xll", "xll"), ("yll", "yll"),
   ("cellsize", "cellsize"), ("nodata_value", "nodata_value"),
   ("xllcenter", "xll"), ("yllcenter", "yll"),
   ("xllcorner", "xll"), ("yllcorner", "yll"),
   ("xlower", "xll"), ("ylower", "yll")]

/-- Python `str.lower()` on the ASCII tokens at hand (character-wise). -/
def pyLower (s : String) : String := String.mk (s.toList.map Char.toLower)

/-- Whether a token matches the key table (case-insensitively). -/
def isKeyTok (s : String) : Bool := (keymap.lookup (pyLower s)).isSome

/-- One iteration body of the header-read loop (topotools.py 491-498): on a
non-empty line, test `line[0]` against the key table and, if it matches,
store `line[1]` under it; then test `line[1]` likewise storing `line[0]`.
Both decrements can fire on one line.  A one-token line raises `IndexError`
at the unconditional `line[1]` access. -/
def processLine (kl : ℤ) (h : HMap) (line : List String) : Py (ℤ × HMap) :=
  match line with
  | [] => pyPure (kl, h)
  | [_] => pyThrow PyErr.indexError
  | t0 :: t1 :: _ =>
    let s1 : ℤ × HMap :=
      match keymap.lookup (pyLower t0) with
      | some ck => (kl - 1, h.set ck (.pstr (convertd2e t1)))
      | none => (kl, h)
    match keymap.lookup (pyLower t1) with
    | some ck => pyPure (s1.1 - 1, s1.2.set ck (.pstr (convertd2e t0)))
    | none => pyPure s1

/-- The `while keyleft > 0` loop (topotools.py 490-498).  At end of file
`readline()` keeps returning an empty token list and the state never changes,
so the loop runs forever: that is modelled by the fuel running out. -/
def thrLoop (fuel : ℕ) (kl : ℤ) (h : HMap) (lines : List (List String)) :
    Py (HMap × List (List String)) :=
  if kl ≤ 0 then pyPure (h, lines)
  else
    match fuel with
    | 0 => pyHang
    | fuel' + 1 =>
      match lines with
      | [] => thrLoop fuel' kl h []
      | l :: rest => pyBind (processLine kl h l) (fun s => thrLoop fuel' s.1 s.2 rest)

/-- Whether `pre` is a prefix of `l`. -/
def startsWith : List Char → List Char → Bool
  | [], _ => true
  | _ :: _, [] => false
  | a :: as, b :: bs => a = b && startsWith as bs

/-- Whether `needle` occurs as a contiguous substring of `l` (Python `in`). -/
def hasInfix (needle : List Char) : List Char → Bool
  | [] => needle.isEmpty
  | c :: rest => startsWith needle (c :: rest) || hasInfix needle rest

/-- Classification used by the post-loop conversion (topotools.py 506-513):
a stored string parses as float when it contains a dot, the substring `nan`,
or the letter `e` (case-insensitively), else as int. -/
def isFloatStr (s : String) : Bool :=
  s.toList.contains '.' ∨ hasInfix ("nan".toList) (pyLower s).toList
    ∨ (pyLower s).toList.contains 'e'

/-- Post-loop conversion of one stored entry (topotools.py 506-513).  Keys the
loop never overwrote still hold their initial numbers; Python's `"." in 0`
then raises `TypeError`. -/
def convertVal (v : PyVal) : Py PyVal :=
  match v with
  | .pstr s =>
    if isFloatStr s then
      match parsePyFloat s with
      | some q => pyPure (.pfloat q)
      | none => pyThrow PyErr.valueError
    else
      match parsePyInt s with
      | some n => pyPure (.pint n)
      | none => pyThrow PyErr.valueError
  | _ => pyThrow PyErr.typeError

/-- The post-loop conversion pass over all six keys, in dictionary order
(topotools.py 501-513). -/
def convertHeader (hm : HMap) : Py HMap :=
  pyBind (convertVal hm.ncols) fun vncols =>
  pyBind (convertVal hm.nrows) fun vnrows =>
  pyBind (convertVal hm.xll) fun vxll =>
  pyBind (convertVal hm.yll) fun vyll =>
  pyBind (convertVal hm.cellsize) fun vcs =>
  pyBind (convertVal hm.nodata_value) fun vnd =>
  pyPure ⟨vncols, vnrows, vxll, vyll, vcs, vnd⟩

/-- The header reader `topoheaderread` (topotools.py 448-521) with
`closefile=False`: returns the converted dictionary together with the lines
remaining after the header (the open file position). -/
def topoheaderread (fuel : ℕ) (file : List (List String)) :
    Py (HMap × List (List String)) :=
  pyBind (thrLoop fuel 6 HMap.init file) fun s =>
  pyBind (convertHeader s.1) fun hdr =>
  pyPure (hdr, s.2)

/-! ## Raster grid codec (`topofile2griddata` / `griddata2topofile`) -/

/-- Numpy `linspace(a, b, n)`: `n` evenly spaced points from `a` to `b`. -/
def linspace (a b : ℚ) (n : ℕ) : List ℚ :=
  (List.range n).map (fun j : ℕ => a + (j : ℚ) * ((b - a) / ((n : ℚ) - 1)))

/-- Parse one data token: `float(iotools.convertd2e(tok))`
(topotools.py 540-543). -/
def parseTok (s : String) : Py ℚ :=
  match parsePyFloat (convertd2e s) with
  | some q => pyPure q
  | none => pyThrow PyErr.valueError

/-- Parse every token of every remaining line (topotools.py 540-543). -/
def parseZLines : List (List String) → Py (List (List ℚ))
  | [] => pyPure []
  | l :: rest =>
    pyBind (l.foldr (fun t acc => pyBind (parseTok t) fun q =>
      pyBind acc fun qs => pyPure (q :: qs)) (pyPure [])) fun row =>
    pyBind (parseZLines rest) fun rows => pyPure (row :: rows)

/-- Numpy `np.array(zdata).reshape(r, c)`: requires a rectangular token
matrix whose total size is `r * c`, else raises. -/
def reshapeTo (r c : ℕ) (zdata : List (List ℚ)) : Py Mat :=
  if zdata.all (fun l => l.length = (zdata.headD []).length)
      ∧ (zdata.map List.length).sum = r * c then
    pyPure ((List.range r).map (fun i => ((zdata.flatten).drop (i * c)).take c))
  else pyThrow PyErr.valueError

/-- The reader `topofile2griddata` (topotools.py 525-574).  For
`topotype > 1`: header, then all remaining tokens parsed as floats and
reshaped to `(nrows, ncols)`; `X`/`Y` are corner-anchored meshes built with
`linspace`/`meshgrid`, `Y` flipped so row 0 is northernmost.  For
`topotype = 1`: the source evaluates `(xdiff < 0).np.argmax()`
(line 562), and a numpy array has no attribute `np`, so the call raises
`AttributeError` unconditionally. -/
def topofile2griddata (fuel : ℕ) (tt : ℤ) (file : List (List String)) :
    Py (Mat × Mat × Mat) :=
  if 1 < tt then
    pyBind (topoheaderread fuel file) fun s =>
    pyBind (parseZLines s.2) fun zdata =>
    pyBind s.1.nrows.toIndex fun nrowsZ =>
    pyBind s.1.ncols.toIndex fun ncolsZ =>
    let nr := nrowsZ.toNat
    let nc := ncolsZ.toNat
    pyBind (reshapeTo nr nc zdata) fun Z =>
    let xlower := s.1.xll.toQ
    let xupper := xlower + s.1.cellsize.toQ * ((nc : ℚ) - 1)
    let ylower := s.1.yll.toQ
    let yupper := ylower + s.1.cellsize.toQ * ((nr : ℚ) - 1)
    let x := linspace xlower xupper nc
    let y := linspace ylower yupper nr
    let X := (List.range nr).map (fun _ => x)
    let Y := (((List.range nr).map (fun i => List.replicate nc (y.getD i 0)))).reverse
    pyPure (X, Y, Z)
  else
    pyBind (datafile2array file) fun a =>
    let xdiff := (a.map (fun r => r.headD 0)).zipWith (fun u v => v - u)
      ((a.map (fun r => r.headD 0)).drop 1)
    let _ := xdiff
    pyThrow PyErr.attributeError

/-- Output of a grid writer: the header dictionary that would head the file
(absent for topotype 1) and the data lines, each a list of numeric tokens.
The text layer (`"%s"` rendering of each number) is abstracted away. -/
structure TopoOut where
  header : Option HMap
  rows : List (List ℚ)
deriving DecidableEq, Repr

/-- The writer `griddata2topofile` (topotools.py 578-651).  Its grid-values
parameter is named `Q`, but the body reads the undefined name `Z` from its
very first statement `nrows = len(Z[:, 0])` on, so every call raises
`NameError` before the output file is opened or written.  The remainder of
the body is translated faithfully as the (unreachable) continuation. -/
def griddata2topofile (X Y Q : Mat) (tt : ℤ) (nodata_value_in nodata_value_out : PyVal) :
    Py TopoOut :=
  let _ := Q
  pyBind (pyThrow PyErr.nameError : Py Mat) fun Z =>
  let nrows := Z.length
  let ncols := (Z.headD []).length
  let xllcc := mget X 0 0
  let yllcc := mget Y (-1) 0
  let xuppercc := mget X 0 (-1)
  let yuppercc := mget Y 0 0
  let cellsizeX := (xuppercc - xllcc) / ((ncols : ℚ) - 1)
  let cellsizeY := (yuppercc - yllcc) / ((nrows : ℚ) - 1)
  let xll := xllcc - cellsizeX / 2
  let yll := yllcc - cellsizeY / 2
  let hdr : HMap :=
    { ncols := .pint (ncols : ℤ), nrows := .pint (nrows : ℤ),
      xll := .pfloat xll, yll := .pfloat yll, cellsize := .pfloat cellsizeX,
      nodata_value := nodata_value_out }
  let _ := nodata_value_in
  let _ := cellsizeY
  if tt = 2 then
    pyPure ⟨some hdr, (Z.flatten).map (fun z => [z])⟩
  else if tt = 3 then
    pyPure ⟨some hdr, Z⟩
  else
    pyPure ⟨none, (List.range nrows).flatMap (fun i => (List.range ncols).map
      (fun j => [mget X i j, mget Y i j, mget Z i j]))⟩

/-- Numpy `np.where(cond)[0]` over a vector: the indices satisfying `p`. -/
def whereIdxs (p : ℚ → Bool) (l : List ℚ) : List ℕ :=
  (List.range l.length).filter (fun i => p (l.getD i 0))

/-- First column of a matrix (`A[:, 0]`). -/
def col0 (A : Mat) : List ℚ := A.map (fun r => r.headD 0)

/-- First row of a matrix (`A[0, :]`). -/
def row0 (A : Mat) : List ℚ := A.headD []

/-- Submatrix selection `A[np.ix_(ri, ci)]`. -/
def ixSub (A : Mat) (ri ci : List ℕ) : Mat :=
  ri.map (fun i => ci.map (fun j => (A.getD i []).getD j 0))

/-- `griddatasubset` (topotools.py 752-770): retain the rows and columns whose
coordinates fall inside the requested box. -/
def griddatasubset (X Y Z : Mat) (xlow xhi ylow yhi : ℚ) : Mat × Mat × Mat :=
  let xind := whereIdxs (fun q => xlow ≤ q ∧ q ≤ xhi) (row0 X)
  let yind := whereIdxs (fun q => q ≤ yhi ∧ ylow ≤ q) (col0 Y)
  (ixSub X yind xind, ixSub Y yind xind, ixSub Z yind xind)

/-! ## `topofilesubset` (topotools.py 936-1037) -/

/-- Result of `topofilesubset`: the materializing path would return a grid
writer output, the streaming path a freshly written header plus the copied
raw token lines, and the streaming path on topotype 1 prints an error and
returns `None`. -/
inductive SubsetOut where
  | viaGrid (o : TopoOut)
  | viaCheap (hdr : HMap) (rows : List (List String))
  | aborted
deriving DecidableEq, Repr

/-- Python truthiness test `not nodata_value_in` used at topotools.py 960:
true for `None`, `0` and `0.0`. -/
def notTruthy : Option PyVal → Bool
  | none => true
  | some (.pint n) => n = 0
  | some (.pfloat q) => q = 0
  | some (.pstr s) => s = ""

/-- State of the streaming copy loop: remaining input lines, `outpts`,
`writtenpts`, and the output lines emitted so far. -/
structure CheapSt where
  inp : List (List String)
  outpts : ℤ
  written : ℤ
  out : List (List String)
deriving DecidableEq, Repr

/-- One `(row, col)` iteration of the streaming copy (topotools.py 1017-1029):
read one line; if the cell coordinate qualifies (`xlow ≤ x ≤ xhi` and
`ylow ≤ y < yhi` — note the strict upper bound on `y`), copy all its tokens
and close the output line. -/
def cheapStep (xll cs yupper xlow xhi ylow yhi : ℚ) (st : CheapSt) (rc : ℕ × ℕ) :
    CheapSt :=
  let y := yupper - (rc.1 : ℚ) * cs
  let x := xll + (rc.2 : ℚ) * cs
  let zdata := st.inp.headD []
  let inp' := st.inp.drop 1
  if (xlow ≤ x ∧ x ≤ xhi) ∧ (ylow ≤ y ∧ y < yhi) then
    if zdata = [] then { st with inp := inp' }
    else
      { inp := inp', outpts := st.outpts - zdata.length,
        written := st.written + zdata.length, out := st.out ++ [zdata] }
  else { st with inp := inp' }

/-- One full pass of the double `for` loop over all `(row, col)` pairs. -/
def cheapPass (xll cs yupper xlow xhi ylow yhi : ℚ) (nrows ncols : ℕ)
    (st : CheapSt) : CheapSt :=
  ((List.range nrows).flatMap (fun r => (List.range ncols).map (fun c => (r, c)))).foldl
    (cheapStep xll cs yupper xlow xhi ylow yhi) st

/-- The `while outpts > 0` wrapper (topotools.py 1016).  When a pass writes
nothing and `outpts` stays positive the loop never terminates (the input file
is exhausted, `readline` returns empty lines forever); fuel exhaustion models
that. -/
def cheapLoop (xll cs yupper xlow xhi ylow yhi : ℚ) (nrows ncols : ℕ)
    (fuel : ℕ) (st : CheapSt) : Py (List (List String)) :=
  if st.outpts ≤ 0 then pyPure st.out
  else
    match fuel with
    | 0 => pyHang
    | fuel' + 1 =>
      cheapLoop xll cs yupper xlow xhi ylow yhi nrows ncols fuel'
        (cheapPass xll cs yupper xlow xhi ylow yhi nrows ncols st)

/-- `topofilesubset` (topotools.py 936-1037).  `cheap = false` materializes
the grid, subsets it, and calls `griddata2topofile` (which raises
`NameError`); `cheap = true` re-derives the output header from the box and
streams qualifying tokens. -/
def topofilesubset (fuel : ℕ) (file : List (List String)) (ttin ttout : ℤ)
    (xlow xhi ylow yhi : ℚ) (nodata_value_in : Option PyVal) (cheap : Bool) :
    Py SubsetOut :=
  if cheap = false then
    pyBind (topofile2griddata fuel ttin file) fun XYZ =>
    pyBind
      (if 1 < ttin ∧ notTruthy nodata_value_in then
        pyBind (topoheaderread fuel file) fun s => pyPure s.1.nodata_value
      else pyPure ((nodata_value_in).getD (.pint 0))) fun nv =>
    let sub := griddatasubset XYZ.1 XYZ.2.1 XYZ.2.2 xlow xhi ylow yhi
    pyBind (griddata2topofile sub.1 sub.2.1 sub.2.2 ttout nv nv) fun o =>
    pyPure (SubsetOut.viaGrid o)
  else
    if ttin = 1 then pyPure SubsetOut.aborted
    else
      pyBind (topoheaderread fuel file) fun s =>
      pyBind s.1.ncols.toIndex fun ncolsZ =>
      pyBind s.1.nrows.toIndex fun nrowsZ =>
      let yll := s.1.yll.toQ
      let xll := s.1.xll.toQ
      let cs := s.1.cellsize.toQ
      let yupper := yll + cs * ((nrowsZ : ℚ) - 1)
      let xupper := xll + cs * ((ncolsZ : ℚ) - 1)
      let xupperout := min xupper xhi
      let xlowout := max xlow xll
      let yupperout := min yupper yhi
      let ylowout := max yll ylow
      let ncolsout := pyTrunc ((xupperout - xlowout) / cs + 1)
      let nrowsout := pyTrunc ((yupperout - ylowout) / cs + 1)
      let j : ℚ := (Int.ceil ((xlowout - xll) / cs + 1) : ℚ)
      let xllout := xll + (j - 1) * cs
      let i : ℚ := (Int.ceil ((ylowout - yll) / cs + 1) : ℚ)
      let yllout := yll + (i - 1) * cs
      let theadout : HMap :=
        { ncols := .pint ncolsout, nrows := .pint nrowsout,
          xll := .pfloat xllout, yll := .pfloat yllout,
          cellsize := s.1.cellsize, nodata_value := s.1.nodata_value }
      let st0 : CheapSt := ⟨s.2, ncolsout * nrowsout, 0, []⟩
      pyBind
        (if 1 < ttin then
          cheapLoop xll cs yupper xlow xhi ylow yhi nrowsZ.toNat ncolsZ.toNat fuel st0
        else pyPure []) fun outlines =>
      pyPure (SubsetOut.viaCheap theadout outlines)

/-! ## Point samplers (`topofilefindz` / `griddatafindz`, topotools.py 774-932) -/

/-- First index satisfying `p` (`np.where(...)[0][0]`); `none` models the
`IndexError` numpy raises on an empty index set. -/
def firstWhere (p : ℚ → Bool) (l : List ℚ) : Option ℕ := (whereIdxs p l).head?

/-- Last index satisfying `p` (`np.where(...)[0][-1]`). -/
def lastWhere (p : ℚ → Bool) (l : List ℚ) : Option ℕ := (whereIdxs p l).getLast?

/-- The out-of-bounds test shared by both samplers (topotools.py 793, 872):
`x < X[0,0] or x > X[0,-1] or y < Y[-1,0] or y > Y[0,0]`. -/
def outOfBox (X Y : Mat) (x y : ℚ) : Bool :=
  x < mget X 0 0 ∨ mget X 0 (-1) < x ∨ y < mget Y (-1) 0 ∨ mget Y 0 0 < y

/-- The shared bilinear interpolation of one in-bounds point
(topotools.py 809-850 and 888-929, identical in both samplers): bracket the
query between two columns and two rows, interpolate along the two bracketing
rows, then between them.  Matrix entries are read off the full meshes exactly
as the source does.  (With an in-bounds query and strictly monotone
coordinates the divisors below are nonzero, matching Python, where a zero
float divisor would raise.) -/
def interpPt (X Y Z : Mat) (x y : ℚ) : Py ℚ :=
  match lastWhere (fun q => q ≤ x) (row0 X), firstWhere (fun q => x ≤ q) (row0 X),
      firstWhere (fun q => q ≤ y) (col0 Y), lastWhere (fun q => y ≤ q) (col0 Y) with
  | some i0, some i1, some j0, some j1 =>
    let g := fun (A : Mat) (jj ii : ℕ) => (A.getD jj []).getD ii 0
    let Z00 := g Z j0 i0
    let Z01 := g Z j0 i1
    let Z10 := g Z j1 i0
    let Z11 := g Z j1 i1
    let X00 := g X j0 i0
    let X10 := g X j1 i0
    let X11 := g X j1 i1
    let Y00 := g Y j0 i0
    let Y11 := g Y j1 i1
    let dzdx0 := if i0 = i1 then 0 else (Z01 - Z00) / (X11 - X00)
    let dzdx1 := if i0 = i1 then 0 else (Z11 - Z10) / (X11 - X00)
    let zy0 := Z00 + (x - X00) * dzdx0
    let zy1 := Z10 + (x - X10) * dzdx1
    let dzdy := if j0 = j1 then 0 else (zy1 - zy0) / (Y11 - Y00)
    pyPure (zy0 + (y - Y00) * dzdy)
  | _, _, _, _ => pyThrow PyErr.indexError

/-- Per-point result of the filename-based sampler: an out-of-bounds query
yields `np.nan` (modelled by the dedicated constructor `nanv`, since `NaN`
has no rational value). -/
inductive ZRes where
  | nanv
  | val (z : ℚ)
deriving DecidableEq, Repr

/-- `topofilefindz` (topotools.py 774-853) on an already-decoded grid (when
called with a filename the source first runs `topofile2griddata` and then
executes exactly this loop): out-of-bounds points emit a warning and append
`np.nan`; in-bounds points are bilinearly interpolated. -/
def topofilefindz (X Y Z : Mat) : List (ℚ × ℚ) → Py (List ZRes)
  | [] => pyPure []
  | p :: rest =>
    if outOfBox X Y p.1 p.2 then
      pyBind (topofilefindz X Y Z rest) fun zs => pyPure (ZRes.nanv :: zs)
    else
      pyBind (interpPt X Y Z p.1 p.2) fun z =>
      pyBind (topofilefindz X Y Z rest) fun zs => pyPure (ZRes.val z :: zs)

/-- `griddatafindz` (topotools.py 857-932): identical loop, but an
out-of-bounds point appends the sentinel `-9999`. -/
def griddatafindz (X Y Z : Mat) : List (ℚ × ℚ) → Py (List ℚ)
  | [] => pyPure []
  | p :: rest =>
    if outOfBox X Y p.1 p.2 then
      pyBind (griddatafindz X Y Z rest) fun zs => pyPure ((-9999 : ℚ) :: zs)
    else
      pyBind (interpPt X Y Z p.1 p.2) fun z =>
      pyBind (griddatafindz X Y Z rest) fun zs => pyPure (z :: zs)

/-! ## AMR frame codec (`pyclaw/io/ascii.py`)

A frame file is modelled as a list of lines, each line the list of numeric
tokens it carries (the trailing descriptive labels of header lines are never
parsed and are omitted; a blank line is `[]`).  The writer renders floats
with `"%18.8e"`/`"%16.8e"`; the value such a token parses back to is
abstracted by an explicit re-encode function `fmt : ℚ → ℚ` applied at
emission, so the file holds exactly the values the reader will see. -/

/-- One line of a frame file: its numeric tokens. -/
abbrev FLine : Type := List ℚ

/-- One spatial dimension of a patch (`pyclaw.solution.Dimension` is not
under `src/`; per the spec a dimension carries a size `n`, a `lower` bound
and a spacing `d`). -/
structure Dim where
  n : ℕ
  lower : ℚ
  d : ℚ
deriving DecidableEq, Repr

/-- One computational grid as written (`pyclaw.solution.Grid` is not under
`src/`; per the spec a patch carries a grid number, an AMR level, its
dimensions and the dense state array `q`, indexed as in the source:
`q[k, m]` in 1-D and `q[k, j, m]` in 2-D, modelled as a function of the
index list). -/
structure AGrid where
  gridno : ℤ
  level : ℤ
  dims : List Dim
  q : List ℕ → ℚ

/-- A solution frame to be written (`pyclaw.solution.Solution` is not under
`src/`; per the spec it carries `t, meqn, maux, ndim` and the patch list,
all patches sharing the scalar values). -/
structure ASolution where
  t : ℚ
  meqn : ℕ
  maux : ℕ
  ndim : ℕ
  grids : List AGrid

/-- Data lines of one patch's `q` dump (ascii.py 98-123): 1-D emits one line
per cell; 2-D adds a blank line after each outer (`j`) slice; 3-D one more
blank after each outermost slice.  Any other rank raises. -/
def qDataLines (fmt : ℚ → ℚ) (meqn : ℕ) (g : AGrid) : Py (List FLine) :=
  match g.dims with
  | [d0] =>
    pyPure ((List.range d0.n).map (fun k =>
      (List.range meqn).map (fun m => fmt (g.q [k, m]))))
  | [d0, d1] =>
    pyPure ((List.range d1.n).flatMap (fun j =>
      (List.range d0.n).map (fun k =>
        (List.range meqn).map (fun m => fmt (g.q [k, j, m]))) ++ [[]]))
  | [d0, d1, d2] =>
    pyPure ((List.range d2.n).flatMap (fun l =>
      (List.range d1.n).flatMap (fun j =>
        (List.range d0.n).map (fun k =>
          (List.range meqn).map (fun m => fmt (g.q [k, j, l, m]))) ++ [[]]) ++ [[]]))
  | _ => pyThrow PyErr.exception

/-- The patch sub-header lines (ascii.py 87-96): `grid_number`, `AMR_level`,
the sizes, the lower bounds, the spacings, then one blank line. -/
def patchHeaderLines (fmt : ℚ → ℚ) (g : AGrid) : List FLine :=
  [[(g.gridno : ℚ)], [(g.level : ℚ)]]
    ++ g.dims.map (fun d => [((d.n : ℤ) : ℚ)])
    ++ g.dims.map (fun d => [fmt d.lower])
    ++ g.dims.map (fun d => [fmt d.d])
    ++ [[]]

/-- One patch's contribution to the `fort.q` file. -/
def writePatch (fmt : ℚ → ℚ) (meqn : ℕ) (g : AGrid) : Py (List FLine) :=
  pyBind (qDataLines fmt meqn g) fun dl => pyPure (patchHeaderLines fmt g ++ dl)

/-- `write_ascii` (ascii.py 29-171) with `write_aux = False`: returns the
`fort.t` header file and the `fort.q` data file.  After the grid loop
(line 85) the source evaluates `grid.maux` on the loop variable (line 162,
`if grid.maux > 0 and write_aux:`); on a frame with no grids the name
`grid` was never bound, so the write raises `UnboundLocalError` (a
`NameError`), re-raised by the bare `except` at lines 169-171; on a
non-empty frame `write_aux = False` makes the guard a no-op. -/
def write_ascii (fmt : ℚ → ℚ) (sol : ASolution) : Py (List FLine × List FLine) :=
  let tfile : List FLine :=
    [[fmt sol.t], [(sol.meqn : ℚ)], [(sol.grids.length : ℚ)],
     [(sol.maux : ℚ)], [(sol.ndim : ℚ)]]
  pyBind (sol.grids.foldr (fun g acc =>
      pyBind (writePatch fmt sol.meqn g) fun pl =>
      pyBind acc fun rest => pyPure (pl ++ rest)) (pyPure [])) fun qfile =>
  match sol.grids with
  | [] => pyThrow PyErr.nameError
  | _ :: _ => pyPure (tfile, qfile)

/-- Modelled from the spec: `pyclaw.util.read_data_line` is not under `src/`;
per the spec each header record line is a numeric value followed by a label,
and the helper returns the line's leading numeric value.  On an empty or
exhausted line Python's `line.split()[0]` raises `IndexError`. -/
def read_data_line : List FLine → Py (ℚ × List FLine)
  | [] => pyThrow PyErr.indexError
  | [] :: _ => pyThrow PyErr.indexError
  | (v :: _) :: rest => pyPure (v, rest)

/-- Read `count` leading values with `read_data_line`, one per line. -/
def readVals (count : ℕ) (lines : List FLine) : Py (List ℚ × List FLine) :=
  match count with
  | 0 => pyPure ([], lines)
  | c + 1 =>
    pyBind (read_data_line lines) fun v =>
    pyBind (readVals c v.2) fun vs => pyPure (v.1 :: vs.1, vs.2)

/-- The token accumulator for one cell (ascii.py 273-278 etc.): keep reading
lines and appending their tokens until at least `width` tokens are buffered,
then use the first `width` (any extras are discarded with the buffer).  At
end of file `readline()` returns no tokens forever, so the loop diverges. -/
def readCell (width : ℕ) (acc : List ℚ) : List FLine → Py (List ℚ × List FLine)
  | [] => if width ≤ acc.length then pyPure (acc.take width, []) else pyHang
  | l :: rest =>
    if width ≤ acc.length then pyPure (acc.take width, l :: rest)
    else readCell width (acc ++ l) rest

/-- Read `count` consecutive cells of `width` values each. -/
def readCells (width : ℕ) (count : ℕ) (lines : List FLine) :
    Py (List (List ℚ) × List FLine) :=
  match count with
  | 0 => pyPure ([], lines)
  | c + 1 =>
    pyBind (readCell width [] lines) fun cell =>
    pyBind (readCells width c cell.2) fun cells =>
    pyPure (cell.1 :: cells.1, cells.2)

/-- Read the 2-D cell block: for each of `n1` slices, `n0` cells then one
(blank) line consumed unchecked (`blank = f.readline()`, ascii.py 288). -/
def readRows2D (width n0 : ℕ) : ℕ → List FLine → Py (List (List ℚ) × List FLine)
  | 0, lines => pyPure ([], lines)
  | n + 1, lines =>
    pyBind (readCells width n0 lines) fun cells =>
    pyBind (readRows2D width n0 n (cells.2.drop 1)) fun rest =>
    pyPure (cells.1 ++ rest.1, rest.2)

/-- A reconstructed patch: the AMR attributes, the parsed dimension records,
and the cells in the order they were filled (row-major over the outer
indices, `meqn` values per cell). -/
structure PatchR where
  gridno : ℤ
  level : ℤ
  ns : List ℕ
  lowers : List ℚ
  ds : List ℚ
  cells : List (List ℚ)
deriving DecidableEq, Repr

/-- The patch sub-header read (ascii.py 231-244): `grid_number`, `level`,
`ndim` sizes, `ndim` lower bounds, `ndim` spacings, then one blank line
skipped. -/
def readSubHeader (ndim : ℕ) (lines : List FLine) :
    Py ((ℤ × ℤ × List ℕ × List ℚ × List ℚ) × List FLine) :=
  pyBind (read_data_line lines) fun g =>
  pyBind (read_data_line g.2) fun lv =>
  pyBind (readVals ndim lv.2) fun ns =>
  pyBind (readVals ndim ns.2) fun los =>
  pyBind (readVals ndim los.2) fun ds =>
  pyPure ((pyTrunc g.1, pyTrunc lv.1, ns.1.map (fun v => (pyTrunc v).toNat),
    los.1, ds.1), ds.2.drop 1)

/-- Read one patch of the primary stream (ascii.py 229-315): sub-header, then
the `q` cells by rank.  Rank 3 raises `NotImplementedError`
(line 290, `3d still does not work!`); other ranks above 3 raise the generic
`Read only supported up to 3d` exception. -/
def readPatch (ndim meqn : ℕ) (lines : List FLine) : Py (PatchR × List FLine) :=
  pyBind (readSubHeader ndim lines) fun sh =>
  let gridno := sh.1.1
  let level := sh.1.2.1
  let ns := sh.1.2.2.1
  let los := sh.1.2.2.2.1
  let ds := sh.1.2.2.2.2
  match ndim with
  | 1 =>
    pyBind (readCells meqn (ns.getD 0 0) sh.2) fun cells =>
    pyPure (⟨gridno, level, ns, los, ds, cells.1⟩, cells.2)
  | 2 =>
    pyBind (readRows2D meqn (ns.getD 0 0) (ns.getD 1 0) sh.2) fun cells =>
    pyPure (⟨gridno, level, ns, los, ds, cells.1⟩, cells.2)
  | 3 => pyThrow PyErr.notImplementedError
  | _ => pyThrow PyErr.exception

/-- Read `count` consecutive patches. -/
def readPatches (ndim meqn : ℕ) : ℕ → List FLine → Py (List PatchR × List FLine)
  | 0, lines => pyPure ([], lines)
  | c + 1, lines =>
    pyBind (readPatch ndim meqn lines) fun p =>
    pyBind (readPatches ndim meqn c p.2) fun ps =>
    pyPure (p.1 :: ps.1, ps.2)

/-- `read_ascii_t` (ascii.py 416-456): the five scalar header records. -/
def read_ascii_t (tfile : List FLine) : Py (ℚ × ℤ × ℤ × ℤ × ℤ) :=
  pyBind (read_data_line tfile) fun t =>
  pyBind (read_data_line t.2) fun meqn =>
  pyBind (read_data_line meqn.2) fun ngrids =>
  pyBind (read_data_line ngrids.2) fun maux =>
  pyBind (read_data_line maux.2) fun ndim =>
  pyPure (t.1, pyTrunc meqn.1, pyTrunc ngrids.1, pyTrunc maux.1, pyTrunc ndim.1)

/-- A reconstructed frame. -/
structure FrameR where
  t : ℚ
  meqn : ℤ
  ngrids : ℤ
  maux : ℤ
  ndim : ℤ
  patches : List PatchR
deriving DecidableEq, Repr

/-- `read_ascii` (ascii.py 174-413) with `read_aux = False`: parse the
`fort.t` header, then `ngrids` patches from the `fort.q` stream.  After the
patch loop the source unconditionally evaluates `solution.grids[0].maux`
(line 325) before testing `read_aux`, so an empty frame raises `IndexError`
there. -/
def read_ascii (tfile qfile : List FLine) : Py FrameR :=
  pyBind (read_ascii_t tfile) fun h =>
  let t := h.1
  let meqn := h.2.1
  let ngrids := h.2.2.1
  let maux := h.2.2.2.1
  let ndim := h.2.2.2.2
  pyBind (readPatches ndim.toNat meqn.toNat ngrids.toNat qfile) fun ps =>
  match ps.1 with
  | [] => pyThrow PyErr.indexError
  | _ :: _ => pyPure ⟨t, meqn, ngrids, maux, ndim, ps.1⟩

/-- The auxiliary-stream reader body for one patch (ascii.py 343-408),
given the matching primary patch: re-read and validate the sub-header
(sizes exactly, `lower`/`d` within absolute `1e-4`, any mismatch raising),
skip one line, then read the `aux` cells by rank — including, verbatim from
the source, a fully implemented rank-3 branch (ascii.py 394-405) that
reconstructs the data instead of raising. -/
def readAuxPatch (primary : PatchR) (maux : ℕ) (lines : List FLine) :
    Py (List (List ℚ) × List FLine) :=
  pyBind (read_data_line lines) fun g =>
  if pyTrunc g.1 ≠ primary.gridno then pyThrow PyErr.exception
  else
  pyBind (read_data_line g.2) fun lv =>
  if pyTrunc lv.1 ≠ primary.level then pyThrow PyErr.exception
  else
  let ndim := primary.ns.length
  pyBind (readVals ndim lv.2) fun ns =>
  if ns.1.map (fun v => (pyTrunc v).toNat) ≠ primary.ns then pyThrow PyErr.exception
  else
  pyBind (readVals ndim ns.2) fun los =>
  if ¬ (List.zip los.1 primary.lowers).all (fun p => |p.2 - p.1| < 1/10000) then
    pyThrow PyErr.exception
  else
  pyBind (readVals ndim los.2) fun ds =>
  if ¬ (List.zip ds.1 primary.ds).all (fun p => |p.2 - p.1| < 1/10000) then
    pyThrow PyErr.exception
  else
  let rest := ds.2.drop 1
  match primary.ns with
  | [n0] => readCells maux n0 rest
  | [n0, n1] => readRows2D maux n0 n1 rest
  | [n0, n1, n2] =>
    (List.range n2).foldl (fun acc _ =>
      pyBind acc fun st =>
      pyBind (readRows2D maux n0 n1 st.2) fun sl =>
      pyPure (st.1 ++ sl.1, sl.2.drop 1)) (pyPure ([], rest))
  | _ => pyThrow PyErr.exception

/-! ## Helper definitions used by the theorem statements -/

/-- The relative tolerance `1e-8` named by the spec. -/
def tol : ℚ := 1 / 100000000

/-- One header-loop step as a pure state transformer (the `ok` case of
`processLine`; lines of length one, which raise instead, keep the state). -/
def lineStep (s : ℤ × HMap) (l : List String) : ℤ × HMap :=
  match processLine s.1 s.2 l with
  | some (Except.ok s2) => s2
  | _ => s

/-- The header-loop state after processing a list of lines. -/
def hdrFold (s : ℤ × HMap) (lines : List (List String)) : ℤ × HMap :=
  lines.foldl lineStep s

/-- Project a header-read result onto the header alone (discarding the file
position). -/
def headerOf (r : Py (HMap × List (List String))) : Py HMap :=
  pyBind r fun s => pyPure s.1

/-- Two lines carry the same key/value pair, in either token order: one
token matches the key table and the other (the numeric value) does not. -/
def keyValLine (l₁ l₂ : List String) : Prop :=
  ∃ k v, isKeyTok k = true ∧ isKeyTok v = false
    ∧ (l₁ = [k, v] ∨ l₁ = [v, k]) ∧ (l₂ = [k, v] ∨ l₂ = [v, k])

/-- The cell values of one patch in emission order (1-D: cell per `k`; 2-D:
`j`-major, `k`-minor), each cell listing its `meqn` components re-encoded by
`fmt`. -/
def cellsOf (fmt : ℚ → ℚ) (meqn : ℕ) (g : AGrid) : List (List ℚ) :=
  match g.dims with
  | [d0] => (List.range d0.n).map (fun k =>
      (List.range meqn).map (fun m => fmt (g.q [k, m])))
  | [d0, d1] => (List.range d1.n).flatMap (fun j =>
      (List.range d0.n).map (fun k =>
        (List.range meqn).map (fun m => fmt (g.q [k, j, m]))))
  | _ => []

/-- The patch a faithful read of a written patch reconstructs. -/
def patchOf (fmt : ℚ → ℚ) (meqn : ℕ) (g : AGrid) : PatchR :=
  ⟨g.gridno, g.level, g.dims.map (fun d => d.n),
    g.dims.map (fun d => fmt d.lower), g.dims.map (fun d => fmt d.d),
    cellsOf fmt meqn g⟩

/-- Write a frame and read it straight back. -/
def roundTrip (fmt : ℚ → ℚ) (sol : ASolution) : Py FrameR :=
  pyBind (write_ascii fmt sol) fun f => read_ascii f.1 f.2

/-- The `X` mesh built from a row of x-coordinates and a column of
y-coordinates (every row equals `xv`), as the raster reader produces it. -/
def mkMeshX (xv yv : List ℚ) : Mat := List.replicate yv.length xv

/-- The `Y` mesh: row `i` is constant at `yv[i]` (row 0 northernmost when
`yv` descends). -/
def mkMeshY (xv yv : List ℚ) : Mat := yv.map (fun v => List.replicate xv.length v)

/-- Per-point contract of `topofilefindz`: an out-of-bounds query yields the
`NaN` sentinel, an in-bounds query the bilinear interpolant. -/
def findzSpec (X Y Z : Mat) (p : ℚ × ℚ) (r : ZRes) : Prop :=
  (outOfBox X Y p.1 p.2 = true → r = ZRes.nanv)
  ∧ (outOfBox X Y p.1 p.2 = false →
      ∃ z, interpPt X Y Z p.1 p.2 = pyPure z ∧ r = ZRes.val z)

/-- Per-point contract of `griddatafindz`: an out-of-bounds query yields the
`-9999` sentinel, an in-bounds query the bilinear interpolant. -/
def gfindzSpec (X Y Z : Mat) (p : ℚ × ℚ) (r : ℚ) : Prop :=
  (outOfBox X Y p.1 p.2 = true → r = -9999)
  ∧ (outOfBox X Y p.1 p.2 = false →
      ∃ z, interpPt X Y Z p.1 p.2 = pyPure z ∧ r = z)

/-! ## Concrete fixtures -/

/-- Scenario A header plus type-2 data block: `ncols=3, nrows=2, xll=0,
yll=0, cellsize=1, nodata=-9999`, `Z = [[1,2,3],[4,5,6]]`. -/
def fileA : List (List String) :=
  [["3", "ncols"], ["2", "nrows"], ["0.0", "xll"], ["0.0", "yll"],
   ["1.0", "cellsize"], ["-9999", "nodata_value"],
   ["1.0"], ["2.0"], ["3.0"], ["4.0"], ["5.0"], ["6.0"]]

/-- Scenario A grid as cell data: `X`/`Y` as decoded by the reader. -/
def XA : Mat := [[0, 1, 2], [0, 1, 2]]

/-- Scenario A `Y` mesh (row 0 north). -/
def YA : Mat := [[1, 1, 1], [0, 0, 0]]

/-- Scenario A `Z` values. -/
def ZA : Mat := [[1, 2, 3], [4, 5, 6]]

/-- The scenario-A header as the parse loop leaves it (raw strings). -/
def hmStrA : HMap :=
  ⟨.pstr "3", .pstr "2", .pstr "0.0", .pstr "0.0", .pstr "1.0", .pstr "-9999"⟩

/-- The scenario-A header after numeric conversion. -/
def hdrA : HMap :=
  ⟨.pint 3, .pint 2, .pfloat 0, .pfloat 0, .pfloat 1, .pint (-9999)⟩

/-- The scenario-A data lines (one `z` token per line, topotype 2). -/
def zLinesA : List (List String) :=
  [["1.0"], ["2.0"], ["3.0"], ["4.0"], ["5.0"], ["6.0"]]

/-- The scenario-A header written key-first (the alternate convention). -/
def fileKeyFirst : List (List String) :=
  [["ncols", "3"], ["nrows", "2"], ["xll", "0.0"], ["yll", "0.0"],
   ["cellsize", "1.0"], ["nodata_value", "-9999"]]

/-- The scenario-A header written value-first (the canonical convention). -/
def fileValFirst : List (List String) :=
  [["3", "ncols"], ["2", "nrows"], ["0.0", "xll"], ["0.0", "yll"],
   ["1.0", "cellsize"], ["-9999", "nodata_value"]]

/-- A well-formed topotype-1 file: a 2 by 2 grid of `(x, y, z)` triples
scanned from the northwest corner, row-major. -/
def fileT1 : List (List String) :=
  [["0.0", "0.0", "1.0"], ["1.0", "0.0", "2.0"],
   ["0.0", "-1.0", "3.0"], ["1.0", "-1.0", "4.0"]]

/-- Scenario B patch: single 2-D grid, `n=[2,2]`, `lower=[0,0]`,
`delta=[1,1]`, `q[k,j] = 1 + k + 2*j`. -/
def gridB : AGrid :=
  { gridno := 1, level := 1,
    dims := [⟨2, 0, 1⟩, ⟨2, 0, 1⟩],
    q := fun ix =>
      match ix with
      | [k, j, _] => 1 + (k : ℚ) + 2 * (j : ℚ)
      | _ => 0 }

/-- Scenario B frame: one 2-D patch, `meqn = 1`, `t = 0`. -/
def solB : ASolution := ⟨0, 1, 0, 2, [gridB]⟩

/-- A time value whose mantissa needs more than the 9 significant decimal
digits that `"%18.8e"` emits: `0.123456789123`. -/
def tLong : ℚ := 123456789123 / 1000000000000

/-- What `"%18.8e"` renders `tLong` back as: `1.23456789e-01`. -/
def tShort : ℚ := 123456789 / 1000000000

/-- A scalar re-encode function agreeing with the `"%18.8e"`/`"%16.8e"`
text layer at the one value it is applied to below: `tLong` prints as
`1.23456789e-01` and re-parses as `tShort`; every other value used in the
fixture is exactly representable and passes through unchanged. -/
def fmtE8 (x : ℚ) : ℚ := if x = tLong then tShort else x

/-- A frame whose time is `tLong`: one 1-D patch, `meqn = 1`, `n = 1`. -/
def solT : ASolution :=
  ⟨tLong, 1, 0, 1, [⟨1, 1, [⟨1, 0, 1⟩], fun _ => 5⟩]⟩

/-- A frame with no patches at all. -/
def solE : ASolution := ⟨1, 1, 0, 1, []⟩

/-- A one-cell 1-D patch, used in the `meqn = 0` frame below. -/
def gridN : AGrid := ⟨1, 1, [⟨1, 0, 1⟩], fun _ => 0⟩

/-- A frame with `meqn = 0` and two patches: every cell's data line in its
`fort.q` stream is blank, so the reader's cell accumulator (which only reads
while fewer than `meqn` tokens are buffered) consumes nothing and the stream
desynchronizes before the second patch. -/
def sol0 : ASolution := ⟨0, 0, 0, 1, [gridN, gridN]⟩

/-- A primary patch record for a 1 by 1 by 1 three-dimensional grid. -/
def patch3 : PatchR := ⟨7, 1, [1, 1, 1], [0, 0, 0], [1, 1, 1], [[1]]⟩

/-- A well-formed auxiliary stream for `patch3` with `maux = 1`: sub-header,
blank, one cell line, and the two slice-closing blanks. -/
def auxLines3 : List FLine :=
  [[7], [1], [1], [1], [1], [0], [0], [0], [1], [1], [1], [], [11/2], [], []]

/-- A primary-stream body with the same sub-header shape as `auxLines3`. -/
def qLines3 : List FLine := auxLines3

/-! # Theorems -/

/-! ## Evaluation helpers

Rational arithmetic does not reduce inside the kernel (its normalisation is
defined by well-founded recursion), so concrete runs are evaluated by
`decide` up to the string/integer level and by `simp`/`norm_num` beyond it. -/

@[simp] theorem pyTrunc_zero : pyTrunc 0 = 0 := by simp [pyTrunc]

@[simp] theorem pyTrunc_one : pyTrunc 1 = 1 := by simp [pyTrunc]

theorem pyTrunc_intCast (n : ℤ) : pyTrunc ((n : ℚ)) = n := by
  rw [pyTrunc]
  split_ifs with h
  · exact Int.floor_intCast n
  · rw [← Int.cast_neg, Int.floor_intCast, neg_neg]

theorem pyTrunc_natCast (n : ℕ) : pyTrunc ((n : ℚ)) = (n : ℤ) := by
  rw [← Int.cast_natCast, pyTrunc_intCast]

theorem parsePyFloat_s0 : parsePyFloat "0.0" = some 0 := by
  have h : "0.0".toList = ['0', '.', '0'] := by decide
  unfold parsePyFloat
  rw [h]
  simp +decide [splitAtChar, digitsOnly, natOfDigits]

theorem parsePyFloat_s1 : parsePyFloat "1.0" = some 1 := by
  have h : "1.0".toList = ['1', '.', '0'] := by decide
  unfold parsePyFloat
  rw [h]
  simp +decide [splitAtChar, digitsOnly, natOfDigits]

theorem parsePyFloat_s2 : parsePyFloat "2.0" = some 2 := by
  have h : "2.0".toList = ['2', '.', '0'] := by decide
  unfold parsePyFloat
  rw [h]
  simp +decide [splitAtChar, digitsOnly, natOfDigits]

theorem parsePyFloat_s3 : parsePyFloat "3.0" = some 3 := by
  have h : "3.0".toList = ['3', '.', '0'] := by decide
  unfold parsePyFloat
  rw [h]
  simp +decide [splitAtChar, digitsOnly, natOfDigits]

theorem parsePyFloat_s4 : parsePyFloat "4.0" = some 4 := by
  have h : "4.0".toList = ['4', '.', '0'] := by decide
  unfold parsePyFloat
  rw [h]
  simp +decide [splitAtChar, digitsOnly, natOfDigits]

theorem parsePyFloat_s5 : parsePyFloat "5.0" = some 5 := by
  have h : "5.0".toList = ['5', '.', '0'] := by decide
  unfold parsePyFloat
  rw [h]
  simp +decide [splitAtChar, digitsOnly, natOfDigits]

theorem parsePyFloat_s6 : parsePyFloat "6.0" = some 6 := by
  have h : "6.0".toList = ['6', '.', '0'] := by decide
  unfold parsePyFloat
  rw [h]
  simp +decide [splitAtChar, digitsOnly, natOfDigits]

theorem thrLoop_fileA : thrLoop 20 6 HMap.init fileA = pyPure (hmStrA, zLinesA) := by
  decide

theorem convertHeader_A : convertHeader hmStrA = pyPure hdrA := by
  have h3 : isFloatStr "3" = false := by decide
  have h2 : isFloatStr "2" = false := by decide
  have hn : isFloatStr "-9999" = false := by decide
  have hf0 : isFloatStr "0.0" = true := by decide
  have hf1 : isFloatStr "1.0" = true := by decide
  have p3 : parsePyInt "3" = some 3 := by decide
  have p2 : parsePyInt "2" = some 2 := by decide
  have pn : parsePyInt "-9999" = some (-9999) := by decide
  simp [convertHeader, hmStrA, hdrA, convertVal, h3, h2, hn, hf0, hf1, p3, p2, pn,
    parsePyFloat_s0, parsePyFloat_s1]

theorem topoheaderread_fileA : topoheaderread 20 fileA = pyPure (hdrA, zLinesA) := by
  unfold topoheaderread
  rw [thrLoop_fileA]
  simp [convertHeader_A]

theorem parseZLines_A :
    parseZLines zLinesA = pyPure [[1], [2], [3], [4], [5], [6]] := by
  have c1 : convertd2e "1.0" = "1.0" := by decide
  have c2 : convertd2e "2.0" = "2.0" := by decide
  have c3 : convertd2e "3.0" = "3.0" := by decide
  have c4 : convertd2e "4.0" = "4.0" := by decide
  have c5 : convertd2e "5.0" = "5.0" := by decide
  have c6 : convertd2e "6.0" = "6.0" := by decide
  simp [parseZLines, zLinesA, parseTok, c1, c2, c3, c4, c5, c6,
    parsePyFloat_s1, parsePyFloat_s2, parsePyFloat_s3, parsePyFloat_s4,
    parsePyFloat_s5, parsePyFloat_s6]

theorem cheapLoop_done (xll cs yupper xlow xhi ylow yhi : ℚ) (nrows ncols fuel : ℕ)
    (st : CheapSt) (h : st.outpts ≤ 0) :
    cheapLoop xll cs yupper xlow xhi ylow yhi nrows ncols fuel st = pyPure st.out := by
  rw [cheapLoop.eq_def, if_pos h]

theorem cheapLoop_step (xll cs yupper xlow xhi ylow yhi : ℚ) (nrows ncols fuel : ℕ)
    (st : CheapSt) (h : ¬ st.outpts ≤ 0) :
    cheapLoop xll cs yupper xlow xhi ylow yhi nrows ncols (fuel + 1) st
      = cheapLoop xll cs yupper xlow xhi ylow yhi nrows ncols fuel
          (cheapPass xll cs yupper xlow xhi ylow yhi nrows ncols st) := by
  rw [cheapLoop.eq_def, if_neg h]

theorem topofile2griddata_fileA :
    topofile2griddata 20 2 fileA = pyPure (XA, YA, ZA) := by
  unfold topofile2griddata
  rw [if_pos (by norm_num), topoheaderread_fileA]
  rw [pyBind_pure]
  rw [parseZLines_A]
  rw [pyBind_pure]
  simp only [hdrA, PyVal.toIndex, pyBind_pure]
  rw [show reshapeTo (Int.toNat 2) (Int.toNat 3) [[1], [2], [3], [4], [5], [6]]
      = pyPure ZA by simp +decide [reshapeTo, ZA]]
  rw [pyBind_pure]
  have e2 : Int.toNat 2 = 2 := rfl
  have e3 : Int.toNat 3 = 3 := rfl
  rw [e2, e3]
  have hr2 : List.range 2 = [0, 1] := by decide
  have hr3 : List.range 3 = [0, 1, 2] := by decide
  simp only [hdrA, PyVal.toQ, linspace, hr2, hr3, List.map_cons, List.map_nil,
    List.getD_cons_zero, List.getD_cons_succ, List.replicate_succ, List.replicate_zero,
    List.reverse_cons, List.reverse_nil, List.nil_append, List.cons_append,
    XA, YA, ZA, pyPure]
  norm_num

/-- C10: for every input, `griddata2topofile` raises an uncaught `NameError`
before opening or writing the output file: its grid-values parameter is named
`Q` but the body reads the undefined name `Z` first when computing `nrows`,
so no call ever produces a topofile. -/
theorem claim_C10 (X Y Q : Mat) (tt : ℤ) (nv1 nv2 : PyVal) :
    griddata2topofile X Y Q tt nv1 nv2 = pyThrow PyErr.nameError := rfl

/-- C1 (failing run): writing the concrete scenario-A grid (`ncols=3`,
`nrows=2`, `cellsize=1`, `Z=[[1,2,3],[4,5,6]]`, row 0 north) as topotype 2
does not produce a file at all — `griddata2topofile` raises `NameError` on
the undefined `Z` before any output is written, so the write/read round trip
claimed by the spec never happens. -/
theorem claim_C1_bug :
    griddata2topofile XA YA ZA 2 (.pint (-9999)) (.pint (-9999))
      = pyThrow PyErr.nameError := rfl

/-- C6 (failing run): on a well-formed topotype-1 file of `(x, y, z)` triples
the reader raises `AttributeError` instead of returning shaped arrays: line
562 evaluates `(xdiff < 0).np.argmax()` and a numpy array has no attribute
`np`, so the row-wrap detection never executes. -/
theorem claim_C6_bug :
    topofile2griddata 20 1 fileT1 = pyThrow PyErr.attributeError := by decide

/-- C8 (failing run): on the same small type-2 file and the same (full)
subset box, the materializing path (`cheap=False`) aborts with the
`griddata2topofile` `NameError` and writes nothing, while the streaming path
(`cheap=True`) succeeds and writes the subset — so the two modes never agree
on any input. -/
theorem claim_C8_bug :
    topofilesubset 20 fileA 2 2 (-1000000) 1000000 (-1000000) 1000000 none false
      = pyThrow PyErr.nameError
    ∧ topofilesubset 20 fileA 2 2 (-1000000) 1000000 (-1000000) 1000000 none true
      = pyPure (SubsetOut.viaCheap
          ⟨.pint 3, .pint 2, .pfloat 0, .pfloat 0, .pfloat 1, .pint (-9999)⟩
          [["1.0"], ["2.0"], ["3.0"], ["4.0"], ["5.0"], ["6.0"]]) := by
  constructor
  · unfold topofilesubset
    rw [if_pos rfl]
    rw [topofile2griddata_fileA, pyBind_pure]
    rw [if_pos (⟨by norm_num, rfl⟩ : (1 : ℤ) < 2 ∧ notTruthy none = true)]
    rw [topoheaderread_fileA, pyBind_pure, pyBind_pure]
    rfl
  · unfold topofilesubset
    rw [if_neg (by simp)]
    rw [if_neg (by norm_num)]
    rw [topoheaderread_fileA, pyBind_pure]
    simp only [hdrA, PyVal.toIndex, pyBind_pure, PyVal.toQ]
    rw [if_pos (by norm_num)]
    norm_num [pyTrunc]
    have hpass : cheapPass 0 1 1 (-1000000) 1000000 (-1000000) 1000000 2 3
        ⟨zLinesA, 6, 0, []⟩ = ⟨[], 0, 6, zLinesA⟩ := by
      have hr2 : List.range 2 = [0, 1] := by decide
      have hr3 : List.range 3 = [0, 1, 2] := by decide
      norm_num [cheapPass, cheapStep, zLinesA, hr2, hr3]
    rw [show Int.toNat 2 = 2 from rfl, show Int.toNat 3 = 3 from rfl]
    rw [show (20 : ℕ) = 19 + 1 from rfl]
    rw [cheapLoop_step 0 1 1 (-1000000) 1000000 (-1000000) 1000000 2 3 19
      ⟨zLinesA, 6, 0, []⟩ (by norm_num)]
    rw [hpass]
    rw [cheapLoop_done 0 1 1 (-1000000) 1000000 (-1000000) 1000000 2 3 19
      ⟨[], 0, 6, zLinesA⟩ (by norm_num)]
    rfl

/-- C9 (counterexample): the auxiliary rank-3 branch of `read_ascii` does
not fail — on a well-formed 3-D auxiliary stream it reconstructs the patch
data and returns it, contradicting the claim that reading a 3-D auxiliary
stream fails with `UnsupportedError`. -/
theorem claim_C9_counterexample :
    readAuxPatch patch3 1 auxLines3 = pyPure ([[11/2]], []) := by
  have hr1 : List.range 1 = [0] := by decide
  norm_num [readAuxPatch, patch3, auxLines3, read_data_line, readVals,
    readRows2D, readCells, readCell, pyBind, pyPure, pyTrunc, hr1]

/-- C9 (amended): for every frame declaring `ndim = 3`, reading a patch of
the primary data stream fails with `NotImplementedError` (the legacy
`UnsupportedError`) as soon as its sub-header has been parsed; the
auxiliary 3-D branch, although itself implemented, is unreachable through
`read_ascii` because this failure aborts the read first. -/
theorem claim_C9_amended (meqn : ℕ) (lines : List FLine)
    (sh : (ℤ × ℤ × List ℕ × List ℚ × List ℚ) × List FLine)
    (hsub : readSubHeader 3 lines = pyPure sh) :
    readPatch 3 meqn lines = pyThrow PyErr.notImplementedError := by
  unfold readPatch
  rw [hsub]
  rfl

/-- C9 (witness): the amended statement applied to the concrete 3-D stream
`qLines3`. -/
theorem claim_C9_witness :
    readPatch 3 1 qLines3 = pyThrow PyErr.notImplementedError :=
  claim_C9_amended 1 qLines3 ((7, 1, [1, 1, 1], [0, 0, 0], [1, 1, 1]),
    [[11/2], [], []])
    (by norm_num [readSubHeader, qLines3, auxLines3, read_data_line, readVals,
      pyBind, pyPure, pyTrunc])

/-- The concrete re-encode function `fmtE8` satisfies the `1e-8` relative
accuracy bound that the `"%18.8e"` text layer guarantees. -/
theorem fmtE8_accurate (x : ℚ) : |fmtE8 x - x| ≤ tol * |x| := by
  by_cases h : x = tLong
  · subst h
    rw [fmtE8, if_pos rfl]
    have hd : tShort - tLong = -(123 / 1000000000000) := by
      norm_num [tShort, tLong]
    rw [hd, abs_neg, abs_of_nonneg (by norm_num),
      abs_of_nonneg (by norm_num [tLong])]
    norm_num [tol, tLong]
  · simp only [fmtE8, if_neg h, sub_self, abs_zero, tol]
    positivity

/-- C2 (counterexample): the AMR round trip does not hold unconditionally.
The header renders `t` with `"%18.8e"` (9 significant digits), so the frame
written at `t = 0.123456789123` reads back with `t = 0.123456789`; a frame
with no patches does not round-trip at all — after the grid loop
`write_ascii` evaluates `grid.maux` on the never-bound loop variable
(ascii.py 162) and the write raises `UnboundLocalError`; and a two-patch
frame with `meqn = 0` writes only blank cell lines, which the reader's cell
accumulator never consumes, so the second patch's sub-header read raises
`IndexError`. -/
theorem claim_C2_counterexample :
    roundTrip fmtE8 solT
      = pyPure ⟨tShort, 1, 1, 0, 1, [⟨1, 1, [1], [0], [1], [[5]]⟩]⟩
    ∧ tShort ≠ tLong
    ∧ roundTrip id solE = pyThrow PyErr.nameError
    ∧ roundTrip id sol0 = pyThrow PyErr.indexError := by
  refine ⟨?_, by norm_num [tShort, tLong], rfl, ?_⟩
  · have hr1 : List.range 1 = [0] := by decide
    norm_num [roundTrip, write_ascii, writePatch, qDataLines, patchHeaderLines,
      solT, fmtE8, tLong, tShort, read_ascii, read_ascii_t, read_data_line,
      readPatches, readPatch, readSubHeader, readVals, readCells, readCell,
      pyBind, pyPure, pyTrunc, hr1]
  · have hr1 : List.range 1 = [0] := by decide
    norm_num [roundTrip, write_ascii, writePatch, qDataLines, patchHeaderLines,
      sol0, gridN, read_ascii, read_ascii_t, read_data_line,
      readPatches, readPatch, readSubHeader, readVals, readCells, readCell,
      pyBind, pyPure, pyThrow, pyTrunc, hr1]

/-! ## C4: header parse on exhausted input -/

theorem lineStep_fst_le (s : ℤ × HMap) (l : List String) : (lineStep s l).1 ≤ s.1 := by
  match l with
  | [] => simp [lineStep, processLine, pyPure]
  | [x] => simp [lineStep, processLine, pyThrow]
  | t0 :: t1 :: ts =>
    rcases h0 : keymap.lookup (pyLower t0) with _ | ck0 <;>
      rcases h1 : keymap.lookup (pyLower t1) with _ | ck1 <;>
      simp [lineStep, processLine, h0, h1, pyPure] <;> omega

theorem processLine_ok (kl : ℤ) (hm : HMap) (l : List String) (hl : l.length ≠ 1) :
    processLine kl hm l = pyPure (lineStep (kl, hm) l) := by
  match l with
  | [] => rfl
  | [x] => exact absurd rfl hl
  | t0 :: t1 :: ts =>
    rcases h0 : keymap.lookup (pyLower t0) with _ | ck0 <;>
      rcases h1 : keymap.lookup (pyLower t1) with _ | ck1 <;>
      simp [lineStep, processLine, h0, h1, pyPure]

theorem hdrFold_cons (s : ℤ × HMap) (l : List String) (rest : List (List String)) :
    hdrFold s (l :: rest) = hdrFold (lineStep s l) rest := rfl

theorem hdrFold_fst_le (lines : List (List String)) :
    ∀ s : ℤ × HMap, (hdrFold s lines).1 ≤ s.1 := by
  induction lines with
  | nil => intro s; exact le_refl _
  | cons l rest ih =>
    intro s
    rw [hdrFold_cons]
    exact le_trans (ih (lineStep s l)) (lineStep_fst_le s l)

theorem thrLoop_stop (fuel : ℕ) (kl : ℤ) (hm : HMap) (lines : List (List String))
    (h : kl ≤ 0) : thrLoop fuel kl hm lines = pyPure (hm, lines) := by
  rw [thrLoop.eq_def, if_pos h]

theorem thrLoop_succ_nil (f : ℕ) (kl : ℤ) (hm : HMap) (h : ¬ kl ≤ 0) :
    thrLoop (f + 1) kl hm [] = thrLoop f kl hm [] := by
  rw [thrLoop.eq_def, if_neg h]

theorem thrLoop_succ_cons (f : ℕ) (kl : ℤ) (hm : HMap) (l : List String)
    (rest : List (List String)) (h : ¬ kl ≤ 0) :
    thrLoop (f + 1) kl hm (l :: rest)
      = pyBind (processLine kl hm l) (fun s => thrLoop f s.1 s.2 rest) := by
  rw [thrLoop.eq_def, if_neg h]

theorem thrLoop_zero (kl : ℤ) (hm : HMap) (lines : List (List String))
    (h : ¬ kl ≤ 0) : thrLoop 0 kl hm lines = pyHang := by
  rw [thrLoop.eq_def, if_neg h]

theorem thrLoop_hang (fuel : ℕ) :
    ∀ (lines : List (List String)) (kl : ℤ) (hm : HMap),
      (∀ l ∈ lines, l.length ≠ 1) → 0 < (hdrFold (kl, hm) lines).1 →
      thrLoop fuel kl hm lines = pyHang := by
  induction fuel with
  | zero =>
    intro lines kl hm h1 h2
    have hkl : 0 < kl := lt_of_lt_of_le h2 (hdrFold_fst_le lines (kl, hm))
    exact thrLoop_zero kl hm lines (by omega)
  | succ f ih =>
    intro lines kl hm h1 h2
    have hkl : 0 < kl := lt_of_lt_of_le h2 (hdrFold_fst_le lines (kl, hm))
    match lines with
    | [] =>
      rw [thrLoop_succ_nil f kl hm (by omega)]
      exact ih [] kl hm (by simp) h2
    | l :: rest =>
      rw [thrLoop_succ_cons f kl hm l rest (by omega)]
      rw [processLine_ok kl hm l (h1 l (List.mem_cons_self l rest)), pyBind_pure]
      exact ih rest _ _ (fun x hx => h1 x (List.mem_cons_of_mem _ hx))
        (by rw [← hdrFold_cons]; exact h2)

/-- C4 (failing behaviour): on every input whose lines are exhausted before
all six keys are resolved (and that raises no stray `IndexError` from a
one-token line), `topoheaderread` neither returns a header nor reports an
error: no amount of fuel makes the `while keyleft > 0` loop terminate,
because `readline()` at end of file yields an empty token list forever.  The
claimed `FormatError` is never raised. -/
theorem claim_C4_bug (lines : List (List String))
    (h1 : ∀ l ∈ lines, l.length ≠ 1)
    (h2 : 0 < (hdrFold (6, HMap.init) lines).1) (fuel : ℕ) :
    topoheaderread fuel lines = pyHang := by
  unfold topoheaderread
  rw [thrLoop_hang fuel lines 6 HMap.init h1 h2]
  rfl

/-- C4 (witness): the one-line file `42 junk` leaves all six keys unresolved
and the reader diverges at fuel 5 (and, by the theorem, at any fuel). -/
theorem claim_C4_witness : topoheaderread 5 [["42", "junk"]] = pyHang :=
  claim_C4_bug [["42", "junk"]] (by decide) (by decide) 5

/-! ## C5: order-independent header parse -/

theorem processLine_swap (kl : ℤ) (hm : HMap) (k v : String)
    (hk : isKeyTok k = true) (hv : isKeyTok v = false) :
    processLine kl hm [k, v] = processLine kl hm [v, k] := by
  obtain ⟨ck, hck⟩ : ∃ ck, keymap.lookup (pyLower k) = some ck := by
    rcases hx : keymap.lookup (pyLower k) with _ | c
    · rw [isKeyTok, hx] at hk
      exact absurd hk (by simp)
    · exact ⟨c, rfl⟩
  have hvn : keymap.lookup (pyLower v) = none := by
    rcases hx : keymap.lookup (pyLower v) with _ | c
    · rfl
    · rw [isKeyTok, hx] at hv
      exact absurd hv (by simp)
  simp [processLine, hck, hvn]

theorem lineStep_congr (s : ℤ × HMap) (a b : List String)
    (h : processLine s.1 s.2 a = processLine s.1 s.2 b) :
    lineStep s a = lineStep s b := by
  rw [lineStep, lineStep, h]

theorem thrLoop_keyVal (fuel : ℕ) :
    ∀ (l₁ l₂ : List (List String)) (kl : ℤ) (hm : HMap),
      List.Forall₂ keyValLine l₁ l₂ →
      (thrLoop fuel kl hm l₁ = pyHang ∧ thrLoop fuel kl hm l₂ = pyHang) ∨
      (∃ hm2 r₁ r₂, List.Forall₂ keyValLine r₁ r₂
        ∧ thrLoop fuel kl hm l₁ = pyPure (hm2, r₁)
        ∧ thrLoop fuel kl hm l₂ = pyPure (hm2, r₂)) := by
  induction fuel with
  | zero =>
    intro l₁ l₂ kl hm hf
    by_cases hkl : kl ≤ 0
    · right
      exact ⟨hm, l₁, l₂, hf, thrLoop_stop 0 kl hm l₁ hkl, thrLoop_stop 0 kl hm l₂ hkl⟩
    · left
      exact ⟨thrLoop_zero kl hm l₁ hkl, thrLoop_zero kl hm l₂ hkl⟩
  | succ f ih =>
    intro l₁ l₂ kl hm hf
    by_cases hkl : kl ≤ 0
    · right
      exact ⟨hm, l₁, l₂, hf, thrLoop_stop _ kl hm l₁ hkl, thrLoop_stop _ kl hm l₂ hkl⟩
    · cases hf with
      | nil =>
        rcases ih [] [] kl hm List.Forall₂.nil with ⟨ha, _⟩ | ⟨hm2, r₁, r₂, hr, ha, hb⟩
        · left
          exact ⟨by rw [thrLoop_succ_nil f kl hm hkl]; exact ha,
            by rw [thrLoop_succ_nil f kl hm hkl]; exact ha⟩
        · right
          exact ⟨hm2, r₁, r₂, hr, by rw [thrLoop_succ_nil f kl hm hkl]; exact ha,
            by rw [thrLoop_succ_nil f kl hm hkl]; exact hb⟩
      | cons hline hrest =>
        rename_i a b as bs
        obtain ⟨k, v, hk, hv, ha, hb⟩ := hline
        have hlen_a : a.length ≠ 1 := by rcases ha with rfl | rfl <;> simp
        have hlen_b : b.length ≠ 1 := by rcases hb with rfl | rfl <;> simp
        have hpe : processLine kl hm a = processLine kl hm b := by
          rcases ha with rfl | rfl <;> rcases hb with rfl | rfl
          · rfl
          · exact processLine_swap kl hm k v hk hv
          · exact (processLine_swap kl hm k v hk hv).symm
          · rfl
        have hstep : lineStep (kl, hm) a = lineStep (kl, hm) b :=
          lineStep_congr (kl, hm) a b hpe
        have e1 : thrLoop (f + 1) kl hm (a :: as)
            = thrLoop f (lineStep (kl, hm) a).1 (lineStep (kl, hm) a).2 as := by
          rw [thrLoop_succ_cons f kl hm a as hkl, processLine_ok kl hm a hlen_a,
            pyBind_pure]
        have e2 : thrLoop (f + 1) kl hm (b :: bs)
            = thrLoop f (lineStep (kl, hm) a).1 (lineStep (kl, hm) a).2 bs := by
          rw [thrLoop_succ_cons f kl hm b bs hkl, processLine_ok kl hm b hlen_b,
            pyBind_pure, ← hstep]
        rcases ih as bs (lineStep (kl, hm) a).1 (lineStep (kl, hm) a).2 hrest with
          ⟨h1, h2⟩ | ⟨hm2, r₁, r₂, hr, h1, h2⟩
        · left
          exact ⟨by rw [e1]; exact h1, by rw [e2]; exact h2⟩
        · right
          exact ⟨hm2, r₁, r₂, hr, by rw [e1]; exact h1, by rw [e2]; exact h2⟩

/-- C5: header parse is order-independent — two header files whose lines
carry the same key/value pairs, each line in either token order (the key
matching the synonym table, the value not), parse to the same header. -/
theorem claim_C5 (fuel : ℕ) (l₁ l₂ : List (List String))
    (hf : List.Forall₂ keyValLine l₁ l₂) :
    headerOf (topoheaderread fuel l₁) = headerOf (topoheaderread fuel l₂) := by
  rcases thrLoop_keyVal fuel l₁ l₂ 6 HMap.init hf with
    ⟨h1, h2⟩ | ⟨hm2, r₁, r₂, _, h1, h2⟩
  · unfold headerOf topoheaderread
    rw [h1, h2]
  · unfold headerOf topoheaderread
    rw [h1, h2, pyBind_pure, pyBind_pure]
    rcases hc : convertHeader hm2 with _ | e | hdr <;> simp [pyBind, hc, pyPure]

/-- C5 (witness): the key-first and value-first spellings of the scenario-A
header parse identically, and both resolve `ncols` to the integer 3 (indeed
to the whole header `hdrA`). -/
theorem claim_C5_witness :
    headerOf (topoheaderread 20 fileKeyFirst) = headerOf (topoheaderread 20 fileValFirst)
    ∧ headerOf (topoheaderread 20 fileKeyFirst) = pyPure hdrA := by
  constructor
  · exact claim_C5 20 fileKeyFirst fileValFirst
      (.cons ⟨"ncols", "3", by decide, by decide, Or.inl rfl, Or.inr rfl⟩
      (.cons ⟨"nrows", "2", by decide, by decide, Or.inl rfl, Or.inr rfl⟩
      (.cons ⟨"xll", "0.0", by decide, by decide, Or.inl rfl, Or.inr rfl⟩
      (.cons ⟨"yll", "0.0", by decide, by decide, Or.inl rfl, Or.inr rfl⟩
      (.cons ⟨"cellsize", "1.0", by decide, by decide, Or.inl rfl, Or.inr rfl⟩
      (.cons ⟨"nodata_value", "-9999", by decide, by decide, Or.inl rfl, Or.inr rfl⟩
      .nil))))))
  · have hl : thrLoop 20 6 HMap.init fileKeyFirst = pyPure (hmStrA, []) := by decide
    unfold headerOf topoheaderread
    rw [hl, pyBind_pure, convertHeader_A]
    rfl

/-! ## C3: edge/center coordinate asymmetry -/

theorem getD_map_range {α : Type} (f : ℕ → α) (n i : ℕ) (d : α) (h : i < n) :
    ((List.range n).map f).getD i d = f i := by
  rw [List.getD_eq_getElem?_getD, List.getElem?_map, List.getElem?_range h]
  rfl

theorem getD_reverse {α : Type} (l : List α) (i : ℕ) (d : α) (h : i < l.length) :
    l.reverse.getD i d = l.getD (l.length - 1 - i) d := by
  rw [List.getD_eq_getElem?_getD, List.getD_eq_getElem?_getD, List.getElem?_reverse h]

theorem getD_replicate {α : Type} (a d : α) (n i : ℕ) (h : i < n) :
    (List.replicate n a).getD i d = a := by
  rw [List.getD_eq_getElem?_getD]
  simp [List.getElem?_replicate, h]

theorem linspace_getD (a b : ℚ) (n j : ℕ) (h : j < n) :
    (linspace a b n).getD j 0 = a + (j : ℚ) * ((b - a) / ((n : ℚ) - 1)) := by
  rw [linspace, getD_map_range _ n j 0 h]

/-- C3: the read path of `topofile2griddata` (topotype > 1) anchors the
coordinate meshes exactly at the header's `xll`, `yll` and advances by
exactly `cellsize` per column/row, with row 0 northernmost — while the write
path, which the claim says derives `xll = X[0,0] - cellsize/2` from cell
centers, in fact raises `NameError` on its undefined `Z` before writing any
header at all. -/
theorem claim_C3_bug (fuel : ℕ) (tt : ℤ) (file : List (List String))
    (hm : HMap) (rest2 : List (List String)) (X Y Z : Mat) (nr nc : ℕ)
    (htt : 1 < tt)
    (hread : topoheaderread fuel file = pyPure (hm, rest2))
    (hXYZ : topofile2griddata fuel tt file = pyPure (X, Y, Z))
    (hnr : hm.nrows = .pint (nr : ℤ))
    (hnc : hm.ncols = .pint (nc : ℤ))
    (hnr0 : 0 < nr) (hnc0 : 0 < nc) :
    (∀ i, i < nr → (X.getD i []).getD 0 0 = hm.xll.toQ)
    ∧ (∀ i j, i < nr → j + 1 < nc →
        (X.getD i []).getD (j + 1) 0 - (X.getD i []).getD j 0 = hm.cellsize.toQ)
    ∧ (∀ j, j < nc → (Y.getD (nr - 1) []).getD j 0 = hm.yll.toQ)
    ∧ (∀ i j, i + 1 < nr → j < nc →
        (Y.getD i []).getD j 0 - (Y.getD (i + 1) []).getD j 0 = hm.cellsize.toQ)
    ∧ (∀ (X2 Y2 Q : Mat) (t2 : ℤ) (nv1 nv2 : PyVal),
        griddata2topofile X2 Y2 Q t2 nv1 nv2 = pyThrow PyErr.nameError) := by
  rw [topofile2griddata, if_pos htt, hread, pyBind_pure] at hXYZ
  dsimp only at hXYZ
  rcases hz : parseZLines rest2 with _ | e | zdata
  · rw [hz] at hXYZ
    exact absurd hXYZ (by simp [pyBind, pyPure])
  · rw [hz] at hXYZ
    exact absurd hXYZ (by simp [pyBind, pyThrow, pyPure])
  rw [hz, pyBind_some_ok] at hXYZ
  rw [hnr, hnc] at hXYZ
  simp only [PyVal.toIndex, pyBind_pure] at hXYZ
  rw [Int.toNat_natCast, Int.toNat_natCast] at hXYZ
  rcases hrs : reshapeTo nr nc zdata with _ | e | Z0
  · rw [hrs] at hXYZ
    exact absurd hXYZ (by simp [pyBind, pyPure])
  · rw [hrs] at hXYZ
    exact absurd hXYZ (by simp [pyBind, pyThrow, pyPure])
  rw [hrs, pyBind_some_ok] at hXYZ
  have h2 : _ = (X, Y, Z) := Except.ok.inj (Option.some.inj hXYZ)
  have hX : X = (List.range nr).map
      (fun _ => linspace hm.xll.toQ (hm.xll.toQ + hm.cellsize.toQ * ((nc : ℚ) - 1)) nc) :=
    (congrArg Prod.fst h2).symm
  have hY : Y = ((List.range nr).map (fun i => List.replicate nc
      ((linspace hm.yll.toQ (hm.yll.toQ + hm.cellsize.toQ * ((nr : ℚ) - 1)) nr).getD i 0))).reverse :=
    (congrArg (fun p => p.2.1) h2).symm
  have hstep : ∀ (a : ℚ) (cs : ℚ) (m : ℕ) (j : ℕ), j + 1 < m →
      (linspace a (a + cs * ((m : ℚ) - 1)) m).getD (j + 1) 0
        - (linspace a (a + cs * ((m : ℚ) - 1)) m).getD j 0 = cs := by
    intro a cs m j hj
    rw [linspace_getD _ _ m (j + 1) hj, linspace_getD _ _ m j (by omega)]
    have hm2 : (2 : ℚ) ≤ (m : ℚ) := by exact_mod_cast by omega
    have hne : ((m : ℚ) - 1) ≠ 0 := by intro hx; nlinarith
    field_simp
    ring
  refine ⟨?_, ?_, ?_, ?_, fun _ _ _ _ _ _ => rfl⟩
  · intro i hi
    rw [hX, getD_map_range _ nr i [] hi, linspace_getD _ _ nc 0 hnc0]
    simp
  · intro i j hi hj
    rw [hX, getD_map_range _ nr i [] hi]
    exact hstep _ _ nc j hj
  · intro j hj
    rw [hY, getD_reverse _ (nr - 1) []
      (by simpa using by omega : nr - 1 < ((List.range nr).map _).length)]
    simp only [List.length_map, List.length_range]
    rw [getD_map_range _ nr (nr - 1 - (nr - 1)) [] (by omega)]
    rw [getD_replicate _ _ nc j hj]
    rw [show nr - 1 - (nr - 1) = 0 from by omega, linspace_getD _ _ nr 0 hnr0]
    simp
  · intro i j hi hj
    rw [hY]
    rw [getD_reverse _ i [] (by simpa using by omega), getD_reverse _ (i + 1) [] (by simpa using by omega)]
    simp only [List.length_map, List.length_range]
    rw [getD_map_range _ nr (nr - 1 - i) [] (by omega),
      getD_map_range _ nr (nr - 1 - (i + 1)) [] (by omega)]
    rw [getD_replicate _ _ nc j hj, getD_replicate _ _ nc j hj]
    rw [show nr - 1 - i = (nr - 1 - (i + 1)) + 1 from by omega]
    exact hstep _ _ nr (nr - 1 - (i + 1)) (by omega)

/-- C3 (witness): the anchoring at concrete indices of the decoded
scenario-A grid, and the write-path `NameError` at the same grid. -/
theorem claim_C3_witness :
    (XA.getD 0 []).getD 0 0 = hdrA.xll.toQ
    ∧ (XA.getD 0 []).getD 1 0 - (XA.getD 0 []).getD 0 0 = hdrA.cellsize.toQ
    ∧ (YA.getD 1 []).getD 0 0 = hdrA.yll.toQ
    ∧ (YA.getD 0 []).getD 0 0 - (YA.getD 1 []).getD 0 0 = hdrA.cellsize.toQ
    ∧ griddata2topofile XA YA ZA 2 (.pint (-9999)) (.pint (-9999))
        = pyThrow PyErr.nameError := by
  obtain ⟨c1, c2, c3, c4, c5⟩ := claim_C3_bug 20 2 fileA hdrA zLinesA XA YA ZA 2 3
    (by norm_num) topoheaderread_fileA topofile2griddata_fileA rfl rfl
    (by norm_num) (by norm_num)
  exact ⟨c1 0 (by norm_num), by simpa using c2 0 0 (by norm_num) (by norm_num),
    c3 0 (by norm_num), by simpa using c4 0 0 (by norm_num) (by norm_num),
    c5 XA YA ZA 2 (.pint (-9999)) (.pint (-9999))⟩

/-! ## C7: point samplers -/

theorem filter_range1_head (p : ℕ → Bool) (i : ℕ) :
    ∀ (s len : ℕ), s ≤ i → i < s + len → p i = true →
      (∀ j, s ≤ j → j < i → p j = false) →
      ((List.range' s len).filter p).head? = some i := by
  intro s len
  induction len generalizing s with
  | zero => intro h1 h2 _ _; omega
  | succ m ih =>
    intro hsi hlt hp hlo
    rw [List.range'_succ]
    by_cases hs : s = i
    · subst hs
      rw [List.filter_cons_of_pos hp]
      rfl
    · have hps : p s = false := hlo s (le_refl _) (by omega)
      rw [List.filter_cons_of_neg (by simp [hps])]
      exact ih (s + 1) (by omega) (by omega) hp (fun j hj1 hj2 => hlo j (by omega) hj2)

theorem filter_range1_getLast (p : ℕ → Bool) (i : ℕ) :
    ∀ (s len : ℕ), s ≤ i → i < s + len → p i = true →
      (∀ j, i < j → j < s + len → p j = false) →
      ((List.range' s len).filter p).getLast? = some i := by
  intro s len
  induction len generalizing s with
  | zero => intro h1 h2 _ _; omega
  | succ m ih =>
    intro hsi hlt hp hhi
    rw [List.range'_succ]
    by_cases hs : s = i
    · subst hs
      rw [List.filter_cons_of_pos hp]
      have hrest : (List.range' (s + 1) m).filter p = [] := by
        rw [List.filter_eq_nil_iff]
        intro a ha
        have hm := List.mem_range'_1.mp ha
        simp [hhi a (by omega) (by omega)]
      rw [hrest]
      rfl
    · have hfr : ((List.range' (s + 1) m).filter p).getLast? = some i :=
        ih (s + 1) (by omega) (by omega) hp (fun j hj1 hj2 => hhi j hj1 (by omega))
      by_cases hps : p s = true
      · rw [List.filter_cons_of_pos hps]
        rcases hc : (List.range' (s + 1) m).filter p with _ | ⟨x, xs⟩
        · rw [hc] at hfr
          exact absurd hfr (by simp)
        · rw [hc] at hfr
          rw [List.getLast?_cons_cons]
          exact hfr
      · rw [List.filter_cons_of_neg (by simpa using hps)]
        exact hfr

theorem lastWhere_eq (p : ℚ → Bool) (l : List ℚ) (i : ℕ) (hi : i < l.length)
    (hp : p (l.getD i 0) = true)
    (hhi : ∀ j, i < j → j < l.length → p (l.getD j 0) = false) :
    lastWhere p l = some i := by
  rw [lastWhere, whereIdxs, List.range_eq_range']
  exact filter_range1_getLast _ i 0 l.length (by omega) (by omega) hp
    (fun j hj1 hj2 => hhi j hj1 (by omega))

theorem firstWhere_eq (p : ℚ → Bool) (l : List ℚ) (i : ℕ) (hi : i < l.length)
    (hp : p (l.getD i 0) = true)
    (hlo : ∀ j, j < i → p (l.getD j 0) = false) :
    firstWhere p l = some i := by
  rw [firstWhere, whereIdxs, List.range_eq_range']
  exact filter_range1_head _ i 0 l.length (by omega) (by omega) hp
    (fun j hj1 hj2 => hlo j hj2)

theorem whereIdxs_ne_nil (p : ℚ → Bool) (l : List ℚ) (i : ℕ) (hi : i < l.length)
    (hp : p (l.getD i 0) = true) : whereIdxs p l ≠ [] := by
  intro h0
  have hmem : i ∈ whereIdxs p l :=
    List.mem_filter.mpr ⟨List.mem_range.mpr hi, hp⟩
  rw [h0] at hmem
  exact absurd hmem (List.not_mem_nil i)

theorem firstWhere_isSome (p : ℚ → Bool) (l : List ℚ) (i : ℕ) (hi : i < l.length)
    (hp : p (l.getD i 0) = true) : ∃ k, firstWhere p l = some k := by
  rcases hc : whereIdxs p l with _ | ⟨x, xs⟩
  · exact absurd hc (whereIdxs_ne_nil p l i hi hp)
  · exact ⟨x, by rw [firstWhere, hc]; rfl⟩

theorem lastWhere_isSome (p : ℚ → Bool) (l : List ℚ) (i : ℕ) (hi : i < l.length)
    (hp : p (l.getD i 0) = true) : ∃ k, lastWhere p l = some k := by
  have hne := whereIdxs_ne_nil p l i hi hp
  have := List.getLast?_isSome.mpr hne
  exact Option.isSome_iff_exists.mp this

theorem getD_map_lt {α β : Type} (f : α → β) (l : List α) (i : ℕ) (d : β) (d0 : α)
    (h : i < l.length) : (l.map f).getD i d = f (l.getD i d0) := by
  rw [List.getD_eq_getElem?_getD, List.getElem?_map, List.getElem?_eq_getElem h,
    List.getD_eq_getElem?_getD, List.getElem?_eq_getElem h]
  rfl

theorem sorted_getD_lt (xv : List ℚ) (hs : List.Pairwise (fun a b => a < b) xv)
    (i j : ℕ) (hij : i < j) (hj : j < xv.length) : xv.getD i 0 < xv.getD j 0 := by
  have h2 := List.pairwise_iff_get.mp hs ⟨i, by omega⟩ ⟨j, hj⟩ hij
  rw [List.getD_eq_getElem?_getD, List.getElem?_eq_getElem (by omega : i < xv.length),
    List.getD_eq_getElem?_getD, List.getElem?_eq_getElem hj]
  simpa using h2

theorem sorted_getD_gt (yv : List ℚ) (hs : List.Pairwise (fun a b => a > b) yv)
    (i j : ℕ) (hij : i < j) (hj : j < yv.length) : yv.getD j 0 < yv.getD i 0 := by
  have h2 := List.pairwise_iff_get.mp hs ⟨i, by omega⟩ ⟨j, hj⟩ hij
  rw [List.getD_eq_getElem?_getD, List.getElem?_eq_getElem hj,
    List.getD_eq_getElem?_getD, List.getElem?_eq_getElem (by omega : i < yv.length)]
  simpa using h2

theorem sorted_getD_le (xv : List ℚ) (hs : List.Pairwise (fun a b => a < b) xv)
    (i j : ℕ) (hij : i ≤ j) (hj : j < xv.length) : xv.getD i 0 ≤ xv.getD j 0 := by
  rcases eq_or_lt_of_le hij with rfl | hlt
  · exact le_refl _
  · exact le_of_lt (sorted_getD_lt xv hs i j hlt hj)

theorem sorted_getD_ge (yv : List ℚ) (hs : List.Pairwise (fun a b => a > b) yv)
    (i j : ℕ) (hij : i ≤ j) (hj : j < yv.length) : yv.getD j 0 ≤ yv.getD i 0 := by
  rcases eq_or_lt_of_le hij with rfl | hlt
  · exact le_refl _
  · exact le_of_lt (sorted_getD_gt yv hs i j hlt hj)

theorem row0_mesh (xv yv : List ℚ) (hy : yv ≠ []) : row0 (mkMeshX xv yv) = xv := by
  rcases yv with _ | ⟨y, ys⟩
  · exact absurd rfl hy
  · rfl

theorem col0_mesh (xv yv : List ℚ) (hx : xv ≠ []) : col0 (mkMeshY xv yv) = yv := by
  rw [col0, mkMeshY, List.map_map]
  conv_rhs => rw [← List.map_id yv]
  apply List.map_congr_left
  intro v _
  rcases xv with _ | ⟨x, xs⟩
  · exact absurd rfl hx
  · rfl

theorem meshX_row (xv yv : List ℚ) (i : ℕ) (hi : i < yv.length) :
    (mkMeshX xv yv).getD i [] = xv :=
  getD_replicate xv [] yv.length i hi

theorem meshY_row (xv yv : List ℚ) (i : ℕ) (hi : i < yv.length) :
    (mkMeshY xv yv).getD i [] = List.replicate xv.length (yv.getD i 0) :=
  getD_map_lt _ yv i [] 0 hi

theorem pyGet_zero {α : Type} (l : List α) (d : α) : pyGet l 0 d = l.getD 0 d := by
  simp [pyGet]

theorem pyGet_neg_one {α : Type} (l : List α) (d : α) :
    pyGet l (-1) d = l.getD (l.length - 1) d := by
  rw [pyGet, if_neg (by norm_num)]
  norm_num

theorem mget_mesh (xv yv : List ℚ) (hx : xv ≠ []) (hy : yv ≠ []) :
    mget (mkMeshX xv yv) 0 0 = xv.getD 0 0
    ∧ mget (mkMeshX xv yv) 0 (-1) = xv.getD (xv.length - 1) 0
    ∧ mget (mkMeshY xv yv) (-1) 0 = yv.getD (yv.length - 1) 0
    ∧ mget (mkMeshY xv yv) 0 0 = yv.getD 0 0 := by
  have hylen : 0 < yv.length := List.length_pos.mpr hy
  have hxlen : 0 < xv.length := List.length_pos.mpr hx
  have hX0 : (mkMeshX xv yv).getD 0 [] = xv := meshX_row xv yv 0 hylen
  have hXlen : (mkMeshX xv yv).length = yv.length := by
    rw [mkMeshX, List.length_replicate]
  have hYlen : (mkMeshY xv yv).length = yv.length := by
    rw [mkMeshY, List.length_map]
  refine ⟨?_, ?_, ?_, ?_⟩
  · rw [mget, pyGet_zero, pyGet_zero, hX0]
  · rw [mget, pyGet_zero, pyGet_neg_one, hX0]
  · rw [mget, pyGet_neg_one, pyGet_zero, hYlen,
      meshY_row xv yv (yv.length - 1) (by omega),
      getD_replicate _ _ xv.length 0 hxlen]
  · rw [mget, pyGet_zero, pyGet_zero, meshY_row xv yv 0 hylen,
      getD_replicate _ _ xv.length 0 hxlen]

theorem outOfBox_mesh (xv yv : List ℚ) (x y : ℚ) (hx : xv ≠ []) (hy : yv ≠ []) :
    outOfBox (mkMeshX xv yv) (mkMeshY xv yv) x y = false
      ↔ (xv.getD 0 0 ≤ x ∧ x ≤ xv.getD (xv.length - 1) 0
          ∧ yv.getD (yv.length - 1) 0 ≤ y ∧ y ≤ yv.getD 0 0) := by
  obtain ⟨h1, h2, h3, h4⟩ := mget_mesh xv yv hx hy
  rw [outOfBox, h1, h2, h3, h4]
  simp only [decide_eq_false_iff_not]
  push_neg
  tauto

theorem node_outOfBox (xv yv : List ℚ)
    (hsx : List.Pairwise (fun a b => a < b) xv)
    (hsy : List.Pairwise (fun a b => a > b) yv)
    (hx : xv ≠ []) (hy : yv ≠ []) (i j : ℕ) (hi : i < xv.length) (hj : j < yv.length) :
    outOfBox (mkMeshX xv yv) (mkMeshY xv yv) (xv.getD i 0) (yv.getD j 0) = false := by
  rw [outOfBox_mesh xv yv _ _ hx hy]
  exact ⟨sorted_getD_le xv hsx 0 i (by omega) hi,
    sorted_getD_le xv hsx i (xv.length - 1) (by omega) (by omega),
    sorted_getD_ge yv hsy j (yv.length - 1) (by omega) (by omega),
    sorted_getD_ge yv hsy 0 j (by omega) hj⟩

theorem interpPt_node (xv yv : List ℚ) (Z : Mat)
    (hsx : List.Pairwise (fun a b => a < b) xv)
    (hsy : List.Pairwise (fun a b => a > b) yv)
    (hx : xv ≠ []) (hy : yv ≠ []) (i j : ℕ) (hi : i < xv.length) (hj : j < yv.length) :
    interpPt (mkMeshX xv yv) (mkMeshY xv yv) Z (xv.getD i 0) (yv.getD j 0)
      = pyPure ((Z.getD j []).getD i 0) := by
  have hi0 : lastWhere (fun q => q ≤ xv.getD i 0) (row0 (mkMeshX xv yv)) = some i := by
    rw [row0_mesh xv yv hy]
    refine lastWhere_eq _ xv i hi (by simp) ?_
    intro k hk1 hk2
    simp only [decide_eq_false_iff_not, not_le]
    exact sorted_getD_lt xv hsx i k hk1 hk2
  have hi1 : firstWhere (fun q => xv.getD i 0 ≤ q) (row0 (mkMeshX xv yv)) = some i := by
    rw [row0_mesh xv yv hy]
    refine firstWhere_eq _ xv i hi (by simp) ?_
    intro k hk1
    simp only [decide_eq_false_iff_not, not_le]
    exact sorted_getD_lt xv hsx k i hk1 hi
  have hj0 : firstWhere (fun q => q ≤ yv.getD j 0) (col0 (mkMeshY xv yv)) = some j := by
    rw [col0_mesh xv yv hx]
    refine firstWhere_eq _ yv j hj (by simp) ?_
    intro k hk1
    simp only [decide_eq_false_iff_not, not_le]
    exact sorted_getD_gt yv hsy k j hk1 hj
  have hj1 : lastWhere (fun q => yv.getD j 0 ≤ q) (col0 (mkMeshY xv yv)) = some j := by
    rw [col0_mesh xv yv hx]
    refine lastWhere_eq _ yv j hj (by simp) ?_
    intro k hk1 hk2
    simp only [decide_eq_false_iff_not, not_le]
    exact sorted_getD_gt yv hsy j k hk1 hk2
  unfold interpPt
  rw [hi0, hi1, hj0, hj1]
  simp

theorem interpPt_cases (X Y Z : Mat) (x y : ℚ) (i0 i1 j0 j1 : ℕ)
    (h1 : lastWhere (fun q => q ≤ x) (row0 X) = some i0)
    (h2 : firstWhere (fun q => x ≤ q) (row0 X) = some i1)
    (h3 : firstWhere (fun q => q ≤ y) (col0 Y) = some j0)
    (h4 : lastWhere (fun q => y ≤ q) (col0 Y) = some j1) :
    ∃ z, interpPt X Y Z x y = pyPure z := by
  unfold interpPt
  rw [h1, h2, h3, h4]
  exact ⟨_, rfl⟩

theorem interpPt_inBounds (xv yv : List ℚ) (Z : Mat) (x y : ℚ)
    (hx : xv ≠ []) (hy : yv ≠ [])
    (hout : outOfBox (mkMeshX xv yv) (mkMeshY xv yv) x y = false) :
    ∃ z, interpPt (mkMeshX xv yv) (mkMeshY xv yv) Z x y = pyPure z := by
  rw [outOfBox_mesh xv yv x y hx hy] at hout
  obtain ⟨h1, h2, h3, h4⟩ := hout
  have hxlen : 0 < xv.length := List.length_pos.mpr hx
  have hylen : 0 < yv.length := List.length_pos.mpr hy
  obtain ⟨i0, hi0⟩ := lastWhere_isSome (fun q => q ≤ x) xv 0 hxlen (by simpa using h1)
  obtain ⟨i1, hi1⟩ := firstWhere_isSome (fun q => x ≤ q) xv (xv.length - 1)
    (by omega) (by simpa using h2)
  obtain ⟨j0, hj0⟩ := firstWhere_isSome (fun q => q ≤ y) yv (yv.length - 1)
    (by omega) (by simpa using h3)
  obtain ⟨j1, hj1⟩ := lastWhere_isSome (fun q => y ≤ q) yv 0 hylen (by simpa using h4)
  exact interpPt_cases _ _ Z x y i0 i1 j0 j1
    (by rw [row0_mesh xv yv hy]; exact hi0)
    (by rw [row0_mesh xv yv hy]; exact hi1)
    (by rw [col0_mesh xv yv hx]; exact hj0)
    (by rw [col0_mesh xv yv hx]; exact hj1)

theorem topofilefindz_batch (xv yv : List ℚ) (Z : Mat) (hx : xv ≠ []) (hy : yv ≠ []) :
    ∀ pts : List (ℚ × ℚ), ∃ rs,
      topofilefindz (mkMeshX xv yv) (mkMeshY xv yv) Z pts = pyPure rs
      ∧ List.Forall₂ (findzSpec (mkMeshX xv yv) (mkMeshY xv yv) Z) pts rs := by
  intro pts
  induction pts with
  | nil => exact ⟨[], rfl, List.Forall₂.nil⟩
  | cons p rest ih =>
    obtain ⟨rs, hrs, hf⟩ := ih
    by_cases hout : outOfBox (mkMeshX xv yv) (mkMeshY xv yv) p.1 p.2 = true
    · refine ⟨ZRes.nanv :: rs, ?_, List.Forall₂.cons ⟨fun _ => rfl, ?_⟩ hf⟩
      · rw [topofilefindz, if_pos hout, hrs, pyBind_pure]
      · intro hc
        rw [hc] at hout
        exact absurd hout (by simp)
    · have houtf : outOfBox (mkMeshX xv yv) (mkMeshY xv yv) p.1 p.2 = false := by
        simpa using hout
      obtain ⟨z, hz⟩ := interpPt_inBounds xv yv Z p.1 p.2 hx hy houtf
      refine ⟨ZRes.val z :: rs, ?_, List.Forall₂.cons ⟨?_, fun _ => ⟨z, hz, rfl⟩⟩ hf⟩
      · rw [topofilefindz, if_neg hout, hz, pyBind_pure, hrs, pyBind_pure]
      · intro hc
        rw [hc] at houtf
        exact absurd houtf (by simp)

theorem griddatafindz_batch (xv yv : List ℚ) (Z : Mat) (hx : xv ≠ []) (hy : yv ≠ []) :
    ∀ pts : List (ℚ × ℚ), ∃ rs,
      griddatafindz (mkMeshX xv yv) (mkMeshY xv yv) Z pts = pyPure rs
      ∧ List.Forall₂ (gfindzSpec (mkMeshX xv yv) (mkMeshY xv yv) Z) pts rs := by
  intro pts
  induction pts with
  | nil => exact ⟨[], rfl, List.Forall₂.nil⟩
  | cons p rest ih =>
    obtain ⟨rs, hrs, hf⟩ := ih
    by_cases hout : outOfBox (mkMeshX xv yv) (mkMeshY xv yv) p.1 p.2 = true
    · refine ⟨-9999 :: rs, ?_, List.Forall₂.cons ⟨fun _ => rfl, ?_⟩ hf⟩
      · rw [griddatafindz, if_pos hout, hrs, pyBind_pure]
      · intro hc
        rw [hc] at hout
        exact absurd hout (by simp)
    · have houtf : outOfBox (mkMeshX xv yv) (mkMeshY xv yv) p.1 p.2 = false := by
        simpa using hout
      obtain ⟨z, hz⟩ := interpPt_inBounds xv yv Z p.1 p.2 hx hy houtf
      refine ⟨z :: rs, ?_, List.Forall₂.cons ⟨?_, fun _ => ⟨z, hz, rfl⟩⟩ hf⟩
      · rw [griddatafindz, if_neg hout, hz, pyBind_pure, hrs, pyBind_pure]
      · intro hc
        rw [hc] at houtf
        exact absurd houtf (by simp)

theorem interpPt_scenC :
    interpPt [[0, 1], [0, 1]] [[1, 1], [0, 0]] [[4, 6], [0, 2]] (1/2) (1/2)
      = pyPure 3 := by
  have hr : List.range 2 = [0, 1] := by decide
  have h1 : lastWhere (fun q => q ≤ (1/2 : ℚ)) (row0 [[0, 1], [0, 1]]) = some 0 := by
    norm_num [lastWhere, whereIdxs, row0, hr, List.filter]
  have h2 : firstWhere (fun q => (1/2 : ℚ) ≤ q) (row0 [[0, 1], [0, 1]]) = some 1 := by
    norm_num [firstWhere, whereIdxs, row0, hr, List.filter]
  have h3 : firstWhere (fun q => q ≤ (1/2 : ℚ)) (col0 [[1, 1], [0, 0]]) = some 1 := by
    norm_num [firstWhere, whereIdxs, col0, hr, List.filter]
  have h4 : lastWhere (fun q => (1/2 : ℚ) ≤ q) (col0 [[1, 1], [0, 0]]) = some 0 := by
    norm_num [lastWhere, whereIdxs, col0, hr, List.filter]
  unfold interpPt
  rw [h1, h2, h3, h4]
  norm_num [pyPure]

theorem outOfBox_scenC :
    outOfBox [[0, 1], [0, 1]] [[1, 1], [0, 0]] (1/2) (1/2) = false := by
  norm_num [outOfBox, mget, pyGet]

/-- C7: point-sampler sentinels and exact node hits.  Over any strictly
monotone mesh (`xv` increasing west to east, `yv` decreasing north to
south): (1) `topofilefindz` never aborts a batch — every out-of-bounds point
yields the `NaN` sentinel and every in-bounds point its bilinear value;
(2) likewise `griddatafindz` with the `-9999` sentinel; (3) a query at any
grid node returns that node's exact `z` under both variants; and (4) on the
concrete unit cell with corner values `0, 2, 4, 6`, sampling `(0.5, 0.5)`
yields exactly `3`. -/
theorem claim_C7 (xv yv : List ℚ) (Z : Mat)
    (hsx : List.Pairwise (fun a b => a < b) xv)
    (hsy : List.Pairwise (fun a b => a > b) yv)
    (hx : xv ≠ []) (hy : yv ≠ []) :
    (∀ pts : List (ℚ × ℚ), ∃ rs,
        topofilefindz (mkMeshX xv yv) (mkMeshY xv yv) Z pts = pyPure rs
        ∧ List.Forall₂ (findzSpec (mkMeshX xv yv) (mkMeshY xv yv) Z) pts rs)
    ∧ (∀ pts : List (ℚ × ℚ), ∃ rs,
        griddatafindz (mkMeshX xv yv) (mkMeshY xv yv) Z pts = pyPure rs
        ∧ List.Forall₂ (gfindzSpec (mkMeshX xv yv) (mkMeshY xv yv) Z) pts rs)
    ∧ (∀ i j, i < xv.length → j < yv.length →
        topofilefindz (mkMeshX xv yv) (mkMeshY xv yv) Z [(xv.getD i 0, yv.getD j 0)]
          = pyPure [ZRes.val ((Z.getD j []).getD i 0)]
        ∧ griddatafindz (mkMeshX xv yv) (mkMeshY xv yv) Z [(xv.getD i 0, yv.getD j 0)]
          = pyPure [(Z.getD j []).getD i 0])
    ∧ topofilefindz [[0, 1], [0, 1]] [[1, 1], [0, 0]] [[4, 6], [0, 2]] [(1/2, 1/2)]
        = pyPure [ZRes.val 3]
    ∧ griddatafindz [[0, 1], [0, 1]] [[1, 1], [0, 0]] [[4, 6], [0, 2]] [(1/2, 1/2)]
        = pyPure [3] := by
  refine ⟨topofilefindz_batch xv yv Z hx hy, griddatafindz_batch xv yv Z hx hy,
    ?_, ?_, ?_⟩
  · intro i j hi hj
    have hnode := interpPt_node xv yv Z hsx hsy hx hy i j hi hj
    have hob := node_outOfBox xv yv hsx hsy hx hy i j hi hj
    constructor
    · rw [topofilefindz, if_neg (by rw [hob]; simp), hnode, pyBind_pure]
      rw [show topofilefindz (mkMeshX xv yv) (mkMeshY xv yv) Z [] = pyPure [] from rfl,
        pyBind_pure]
    · rw [griddatafindz, if_neg (by rw [hob]; simp), hnode, pyBind_pure]
      rw [show griddatafindz (mkMeshX xv yv) (mkMeshY xv yv) Z [] = pyPure [] from rfl,
        pyBind_pure]
  · rw [topofilefindz, if_neg (by rw [outOfBox_scenC]; simp), interpPt_scenC, pyBind_pure]
    rw [show topofilefindz [[0, 1], [0, 1]] [[1, 1], [0, 0]] [[4, 6], [0, 2]] []
      = pyPure [] from rfl, pyBind_pure]
  · rw [griddatafindz, if_neg (by rw [outOfBox_scenC]; simp), interpPt_scenC, pyBind_pure]
    rw [show griddatafindz [[0, 1], [0, 1]] [[1, 1], [0, 0]] [[4, 6], [0, 2]] []
      = pyPure [] from rfl, pyBind_pure]

/-- C7 (witness): the theorem applied to the concrete scenario-C grid — a
node query returns the exact node value and the cell-center query returns 3. -/
theorem claim_C7_witness :
    topofilefindz (mkMeshX [0, 1] [1, 0]) (mkMeshY [0, 1] [1, 0]) [[4, 6], [0, 2]] [(0, 1)]
      = pyPure [ZRes.val 4]
    ∧ griddatafindz [[0, 1], [0, 1]] [[1, 1], [0, 0]] [[4, 6], [0, 2]] [(1/2, 1/2)]
      = pyPure [3] := by
  have h := claim_C7 [0, 1] [1, 0] [[4, 6], [0, 2]]
    (by norm_num [List.pairwise_cons]) (by norm_num [List.pairwise_cons])
    (by simp) (by simp)
  refine ⟨?_, h.2.2.2.2⟩
  have h2 := (h.2.2.1) 0 0 (by norm_num) (by norm_num)
  simpa using h2.1

/-! ## C2: the AMR round trip -/

/-- Step equation: `readCell` at end of file. -/
theorem readCell_nil (w : ℕ) (acc : List ℚ) :
    readCell w acc [] = if w ≤ acc.length then pyPure (acc.take w, []) else pyHang := rfl

/-- Step equation: `readCell` on a remaining line. -/
theorem readCell_cons (w : ℕ) (acc l : List ℚ) (rest : List FLine) :
    readCell w acc (l :: rest) =
      if w ≤ acc.length then pyPure (acc.take w, l :: rest)
      else readCell w (acc ++ l) rest := rfl

/-- Step equation: `readCells` with no cells requested. -/
theorem readCells_zero (w : ℕ) (lines : List FLine) :
    readCells w 0 lines = pyPure ([], lines) := rfl

/-- Step equation: `readCells` with one more cell requested. -/
theorem readCells_succ (w c : ℕ) (lines : List FLine) :
    readCells w (c + 1) lines =
      pyBind (readCell w [] lines) fun cell =>
      pyBind (readCells w c cell.2) fun cells =>
      pyPure (cell.1 :: cells.1, cells.2) := rfl

/-- Step equation: `readVals` with no values requested. -/
theorem readVals_zero (lines : List FLine) :
    readVals 0 lines = pyPure ([], lines) := rfl

/-- Step equation: `readVals` with one more value requested. -/
theorem readVals_succ (c : ℕ) (lines : List FLine) :
    readVals (c + 1) lines =
      pyBind (read_data_line lines) fun v =>
      pyBind (readVals c v.2) fun vs => pyPure (v.1 :: vs.1, vs.2) := rfl

/-- Step equation: `readRows2D` with no slices requested. -/
theorem readRows2D_zero (w n0 : ℕ) (lines : List FLine) :
    readRows2D w n0 0 lines = pyPure ([], lines) := rfl

/-- Step equation: `readRows2D` with one more slice requested. -/
theorem readRows2D_succ (w n0 n : ℕ) (lines : List FLine) :
    readRows2D w n0 (n + 1) lines =
      pyBind (readCells w n0 lines) fun cells =>
      pyBind (readRows2D w n0 n (cells.2.drop 1)) fun rest =>
      pyPure (cells.1 ++ rest.1, rest.2) := rfl

/-- Step equation: `readPatches` with no patches requested. -/
theorem readPatches_zero (ndim meqn : ℕ) (lines : List FLine) :
    readPatches ndim meqn 0 lines = pyPure ([], lines) := rfl

/-- Step equation: `readPatches` with one more patch requested. -/
theorem readPatches_succ (ndim meqn c : ℕ) (lines : List FLine) :
    readPatches ndim meqn (c + 1) lines =
      pyBind (readPatch ndim meqn lines) fun p =>
      pyBind (readPatches ndim meqn c p.2) fun ps =>
      pyPure (p.1 :: ps.1, ps.2) := rfl

/-- A line holding exactly the cell width is consumed whole by the token
accumulator, leaving the remaining lines untouched. -/
theorem readCell_exact (l : List ℚ) (rest : List FLine) (hw : 1 ≤ l.length) :
    readCell l.length [] (l :: rest) = pyPure (l, rest) := by
  have h0 : ¬ l.length ≤ ([] : List ℚ).length := by
    simp only [List.length_nil]; omega
  rw [readCell_cons, if_neg h0, List.nil_append]
  cases rest with
  | nil => rw [readCell_nil, if_pos (le_refl _), List.take_length]
  | cons r rs => rw [readCell_cons, if_pos (le_refl _), List.take_length]

/-- A block of full-width lines is read back as exactly those cells. -/
theorem readCells_exact (w : ℕ) (hw : 1 ≤ w) (cl : List (List ℚ)) (rest : List FLine)
    (hcl : ∀ l ∈ cl, l.length = w) :
    readCells w cl.length (cl ++ rest) = pyPure (cl, rest) := by
  induction cl with
  | nil => rw [List.length_nil, List.nil_append, readCells_zero]
  | cons c cs ih =>
    have hc : c.length = w := hcl c (List.mem_cons_self c cs)
    have hcell : readCell w [] (c :: (cs ++ rest)) = pyPure (c, cs ++ rest) := by
      rw [← hc]
      exact readCell_exact c (cs ++ rest) (by omega)
    rw [List.length_cons, List.cons_append, readCells_succ, hcell]
    simp only [pyBind_pure]
    rw [ih (fun l hl => hcl l (List.mem_cons_of_mem c hl))]
    simp only [pyBind_pure]

/-- A sequence of slices, each its cells followed by one blank line, is read
back as the concatenation of the slices. -/
theorem readRows2D_exact (w n0 : ℕ) (hw : 1 ≤ w) (rows : List (List (List ℚ)))
    (rest : List FLine)
    (hrows : ∀ r ∈ rows, r.length = n0 ∧ ∀ l ∈ r, l.length = w) :
    readRows2D w n0 rows.length (rows.flatMap (fun r => r ++ [[]]) ++ rest)
      = pyPure (rows.flatten, rest) := by
  induction rows with
  | nil => simp [readRows2D_zero]
  | cons r rs ih =>
    obtain ⟨hrl, hrw⟩ := hrows r (List.mem_cons_self r rs)
    have hcells : readCells w n0 ((r ++ [[]]) ++ (rs.flatMap (fun x => x ++ [[]]) ++ rest))
        = pyPure (r, [] :: (rs.flatMap (fun x => x ++ [[]]) ++ rest)) := by
      rw [← hrl, List.append_assoc]
      exact readCells_exact w hw r _ hrw
    rw [List.length_cons, List.flatMap_cons, List.append_assoc, readRows2D_succ, hcells]
    simp only [pyBind_pure, List.drop_succ_cons, List.drop_zero]
    rw [ih (fun x hx => hrows x (List.mem_cons_of_mem r hx))]
    simp only [pyBind_pure, List.flatten_cons]

/-- A block of singleton lines is read back as exactly its values. -/
theorem readVals_exact (xs : List ℚ) (rest : List FLine) :
    readVals xs.length (xs.map (fun v => [v]) ++ rest) = pyPure (xs, rest) := by
  induction xs with
  | nil => rw [List.length_nil, List.map_nil, List.nil_append, readVals_zero]
  | cons x xs ih =>
    rw [List.length_cons, List.map_cons, List.cons_append, readVals_succ]
    simp only [read_data_line, pyBind_pure]
    rw [ih]
    simp only [pyBind_pure]

/-- Count-generalized form of `readCells_exact`. -/
theorem readCells_count (w c : ℕ) (hw : 1 ≤ w) (cl : List (List ℚ)) (rest : List FLine)
    (hc : c = cl.length) (hcl : ∀ l ∈ cl, l.length = w) :
    readCells w c (cl ++ rest) = pyPure (cl, rest) := by
  subst hc
  exact readCells_exact w hw cl rest hcl

/-- Count-generalized form of `readRows2D_exact`. -/
theorem readRows2D_count (w n0 c : ℕ) (hw : 1 ≤ w) (rows : List (List (List ℚ)))
    (rest : List FLine) (hc : c = rows.length)
    (hrows : ∀ r ∈ rows, r.length = n0 ∧ ∀ l ∈ r, l.length = w) :
    readRows2D w n0 c (rows.flatMap (fun r => r ++ [[]]) ++ rest)
      = pyPure (rows.flatten, rest) := by
  subst hc
  exact readRows2D_exact w n0 hw rows rest hrows

/-- The sub-header reader consumes exactly the lines the writer emitted for a
patch, reconstructing the grid number, level, sizes and the re-encoded
bounds and spacings. -/
theorem readSubHeader_write (fmt : ℚ → ℚ) (g : AGrid) (ndim : ℕ)
    (hnd : ndim = g.dims.length) (rest : List FLine) :
    readSubHeader ndim (patchHeaderLines fmt g ++ rest)
      = pyPure ((g.gridno, g.level, g.dims.map (fun d => d.n),
          g.dims.map (fun d => fmt d.lower), g.dims.map (fun d => fmt d.d)), rest) := by
  subst hnd
  have hv : ∀ (f : Dim → ℚ) (L : List FLine),
      readVals g.dims.length (g.dims.map (fun d => [f d]) ++ L)
        = pyPure (g.dims.map f, L) := by
    intro f L
    have h1 : g.dims.map (fun d => [f d]) = (g.dims.map f).map (fun v => [v]) := by
      rw [List.map_map]
      rfl
    have h2 : g.dims.length = (g.dims.map f).length := (List.length_map _ _).symm
    rw [h1, h2, readVals_exact]
  have hshape : patchHeaderLines fmt g ++ rest
      = [(g.gridno : ℚ)] :: [(g.level : ℚ)] ::
        (g.dims.map (fun d => [((d.n : ℤ) : ℚ)]) ++
         (g.dims.map (fun d => [fmt d.lower]) ++
          (g.dims.map (fun d => [fmt d.d]) ++ ([] :: rest)))) := by
    simp [patchHeaderLines, List.append_assoc]
  rw [readSubHeader, hshape]
  simp only [read_data_line, pyBind_pure, hv]
  simp only [List.map_map, List.drop_succ_cons, List.drop_zero]
  have h3 : ((fun v => (pyTrunc v).toNat) ∘ fun d : Dim => ((d.n : ℤ) : ℚ))
      = fun d : Dim => d.n := by
    funext d
    simp [Function.comp, pyTrunc_natCast, Int.toNat_natCast]
  rw [h3, pyTrunc_intCast, pyTrunc_intCast]

/-- Writing one patch succeeds for rank 1 or 2, and the patch reader consumes
exactly the written lines, reconstructing `patchOf`. -/
theorem readPatch_write (fmt : ℚ → ℚ) (meqn : ℕ) (hm : 1 ≤ meqn) (g : AGrid)
    (hd : g.dims.length = 1 ∨ g.dims.length = 2) :
    ∃ pl, writePatch fmt meqn g = pyPure pl ∧
      ∀ rest, readPatch g.dims.length meqn (pl ++ rest)
        = pyPure (patchOf fmt meqn g, rest) := by
  rcases hg : g.dims with _ | ⟨d0, _ | ⟨d1, _ | ⟨d2, ds⟩⟩⟩
  · rw [hg] at hd; simp at hd
  · -- one-dimensional patch
    refine ⟨patchHeaderLines fmt g ++ (List.range d0.n).map (fun k =>
      (List.range meqn).map (fun m => fmt (g.q [k, m]))), ?_, fun rest => ?_⟩
    · rw [writePatch]
      simp only [qDataLines, hg, pyBind_pure]
    · rw [readPatch, List.append_assoc,
        readSubHeader_write fmt g ([d0].length) (by rw [hg]) _]
      simp only [pyBind_pure, List.length_cons, List.length_nil]
      have hcells : readCells meqn ((g.dims.map (fun d => d.n)).getD 0 0)
          ((List.range d0.n).map (fun k =>
            (List.range meqn).map (fun m => fmt (g.q [k, m]))) ++ rest)
          = pyPure ((List.range d0.n).map (fun k =>
            (List.range meqn).map (fun m => fmt (g.q [k, m]))), rest) := by
        have hg0 : (g.dims.map (fun d => d.n)).getD 0 0 = d0.n := by
          rw [hg]; rfl
        rw [hg0]
        exact readCells_count meqn d0.n hm _ rest
          (by rw [List.length_map, List.length_range])
          (fun l hl2 => by
            obtain ⟨k, _, hk⟩ := List.mem_map.mp hl2
            rw [← hk, List.length_map, List.length_range])
      rw [hcells]
      simp only [pyBind_pure, patchOf, cellsOf, hg]
  · -- two-dimensional patch
    refine ⟨patchHeaderLines fmt g ++ (List.range d1.n).flatMap (fun j =>
      (List.range d0.n).map (fun k =>
        (List.range meqn).map (fun m => fmt (g.q [k, j, m]))) ++ [[]]), ?_, fun rest => ?_⟩
    · rw [writePatch]
      simp only [qDataLines, hg, pyBind_pure]
    · rw [readPatch, List.append_assoc,
        readSubHeader_write fmt g ([d0, d1].length) (by rw [hg]) _]
      simp only [pyBind_pure, List.length_cons, List.length_nil]
      have hg0 : (g.dims.map (fun d => d.n)).getD 0 0 = d0.n := by rw [hg]; rfl
      have hg1 : (g.dims.map (fun d => d.n)).getD 1 0 = d1.n := by rw [hg]; rfl
      have hrows : readRows2D meqn ((g.dims.map (fun d => d.n)).getD 0 0)
          ((g.dims.map (fun d => d.n)).getD 1 0)
          ((List.range d1.n).flatMap (fun j =>
            (List.range d0.n).map (fun k =>
              (List.range meqn).map (fun m => fmt (g.q [k, j, m]))) ++ [[]]) ++ rest)
          = pyPure ((List.range d1.n).flatMap (fun j =>
              (List.range d0.n).map (fun k =>
                (List.range meqn).map (fun m => fmt (g.q [k, j, m])))), rest) := by
        have hfm : (List.range d1.n).flatMap (fun j =>
            (List.range d0.n).map (fun k =>
              (List.range meqn).map (fun m => fmt (g.q [k, j, m]))) ++ [[]])
            = ((List.range d1.n).map (fun j =>
                (List.range d0.n).map (fun k =>
                  (List.range meqn).map (fun m => fmt (g.q [k, j, m]))))).flatMap
                (fun r => r ++ [[]]) := by
          rw [List.flatMap_map]
        have hflat : (List.range d1.n).flatMap (fun j =>
            (List.range d0.n).map (fun k =>
              (List.range meqn).map (fun m => fmt (g.q [k, j, m]))))
            = ((List.range d1.n).map (fun j =>
                (List.range d0.n).map (fun k =>
                  (List.range meqn).map (fun m => fmt (g.q [k, j, m]))))).flatten := by
          rw [List.flatMap_def]
        rw [hg0, hg1, hfm, hflat]
        exact readRows2D_count meqn d0.n d1.n hm _ rest
          (by rw [List.length_map, List.length_range])
          (fun r hr => by
            obtain ⟨j, _, hj⟩ := List.mem_map.mp hr
            constructor
            · rw [← hj, List.length_map, List.length_range]
            · intro l hl2
              rw [← hj] at hl2
              obtain ⟨k, _, hk⟩ := List.mem_map.mp hl2
              rw [← hk, List.length_map, List.length_range])
      rw [hrows]
      simp only [pyBind_pure, patchOf, cellsOf, hg]
  · rw [hg] at hd; simp at hd

/-- Writing a list of rank-1 or rank-2 patches succeeds and the patch loop
reads back exactly `patchOf` of each. -/
theorem readPatches_write (fmt : ℚ → ℚ) (meqn : ℕ) (hm : 1 ≤ meqn) (ndim : ℕ)
    (hndim : ndim = 1 ∨ ndim = 2) (gs : List AGrid)
    (hdims : ∀ g ∈ gs, g.dims.length = ndim) :
    ∃ qf, gs.foldr (fun g acc =>
        pyBind (writePatch fmt meqn g) fun pl =>
        pyBind acc fun rest => pyPure (pl ++ rest)) (pyPure []) = pyPure qf
      ∧ ∀ rest, readPatches ndim meqn gs.length (qf ++ rest)
          = pyPure (gs.map (patchOf fmt meqn), rest) := by
  induction gs with
  | nil =>
    refine ⟨[], rfl, fun rest => ?_⟩
    rw [List.length_nil, List.nil_append, readPatches_zero, List.map_nil]
  | cons g gs ih =>
    obtain ⟨qf, hq, hr⟩ := ih (fun x hx => hdims x (List.mem_cons_of_mem g hx))
    have hdg : g.dims.length = ndim := hdims g (List.mem_cons_self g gs)
    obtain ⟨pl, hwp, hrp⟩ := readPatch_write fmt meqn hm g (by omega)
    refine ⟨pl ++ qf, ?_, fun rest => ?_⟩
    · rw [List.foldr_cons, hwp, pyBind_pure, hq, pyBind_pure]
    · rw [List.length_cons, readPatches_succ, List.append_assoc, ← hdg,
        hrp (qf ++ rest)]
      simp only [pyBind_pure]
      rw [hdg, hr rest]
      simp only [pyBind_pure, List.map_cons]

/-- Pointwise relation between two maps over the same list. -/
theorem forall2_map_both {α β γ : Type} (R : β → γ → Prop) (f : α → β) (g : α → γ)
    (l : List α) (h : ∀ a ∈ l, R (f a) (g a)) :
    List.Forall₂ R (l.map f) (l.map g) := by
  induction l with
  | nil => exact List.Forall₂.nil
  | cons a l ih =>
    exact List.Forall₂.cons (h a (List.mem_cons_self a l))
      (ih (fun x hx => h x (List.mem_cons_of_mem a hx)))

/-- Chunk-wise relation between two flat maps over the same list. -/
theorem forall2_flatMap_both {α β γ : Type} (R : β → γ → Prop) (f : α → List β)
    (g : α → List γ) (l : List α) (h : ∀ a ∈ l, List.Forall₂ R (f a) (g a)) :
    List.Forall₂ R (l.flatMap f) (l.flatMap g) := by
  induction l with
  | nil => simp
  | cons a l ih =>
    rw [List.flatMap_cons, List.flatMap_cons]
    exact List.rel_append (h a (List.mem_cons_self a l))
      (ih (fun x hx => h x (List.mem_cons_of_mem a hx)))

/-- Cell-by-cell, component-by-component, a patch's re-encoded written values
stay within the relative tolerance of the exact values. -/
theorem forall2_cellsOf (fmt : ℚ → ℚ) (meqn : ℕ) (g : AGrid)
    (hfmt : ∀ x, |fmt x - x| ≤ tol * |x|) :
    List.Forall₂ (List.Forall₂ (fun a b => |a - b| ≤ tol * |b|))
      (cellsOf fmt meqn g) (cellsOf id meqn g) := by
  rcases hg : g.dims with _ | ⟨d0, _ | ⟨d1, _ | ⟨d2, ds⟩⟩⟩
  · simp only [cellsOf, hg]
    exact List.Forall₂.nil
  · simp only [cellsOf, hg]
    exact forall2_map_both _ _ _ _ (fun k _ =>
      forall2_map_both _ _ _ _ (fun m _ => by simpa using hfmt (g.q [k, m])))
  · simp only [cellsOf, hg]
    exact forall2_flatMap_both _ _ _ _ (fun j _ =>
      forall2_map_both _ _ _ _ (fun k _ =>
        forall2_map_both _ _ _ _ (fun m _ => by simpa using hfmt (g.q [k, j, m]))))
  · simp only [cellsOf, hg]
    exact List.Forall₂.nil

/-- C2 (amended): for a frame with at least one rank-1 or rank-2 patch and
`meqn ≥ 1`, writing with a scalar text layer of relative accuracy `1e-8` and
reading straight back reproduces `meqn`, `ngrids`, `maux` and `ndim` exactly,
the time within the relative tolerance, and every patch's structure exactly
with its `q` values within the relative tolerance. -/
theorem claim_C2_amended (fmt : ℚ → ℚ) (sol : ASolution)
    (hfmt : ∀ x, |fmt x - x| ≤ tol * |x|)
    (hne : sol.grids ≠ [])
    (hdims : ∀ g ∈ sol.grids, g.dims.length = sol.ndim)
    (hndim : sol.ndim = 1 ∨ sol.ndim = 2)
    (hmeqn : 1 ≤ sol.meqn) :
    ∃ fr, roundTrip fmt sol = pyPure fr
      ∧ |fr.t - sol.t| ≤ tol * |sol.t|
      ∧ fr.meqn = (sol.meqn : ℤ) ∧ fr.ngrids = (sol.grids.length : ℤ)
      ∧ fr.maux = (sol.maux : ℤ) ∧ fr.ndim = (sol.ndim : ℤ)
      ∧ List.Forall₂ (fun g p => p = patchOf fmt sol.meqn g
          ∧ List.Forall₂ (List.Forall₂ (fun a b => |a - b| ≤ tol * |b|))
              p.cells (cellsOf id sol.meqn g)) sol.grids fr.patches := by
  obtain ⟨g0, gs0, hg0⟩ : ∃ g0 gs0, sol.grids = g0 :: gs0 := by
    cases h : sol.grids with
    | nil => exact absurd h hne
    | cons a b => exact ⟨a, b, rfl⟩
  obtain ⟨qf, hqf, hread⟩ :=
    readPatches_write fmt sol.meqn hmeqn sol.ndim hndim sol.grids hdims
  have hrt : roundTrip fmt sol
      = pyPure ⟨fmt sol.t, (sol.meqn : ℤ), (sol.grids.length : ℤ),
          (sol.maux : ℤ), (sol.ndim : ℤ), sol.grids.map (patchOf fmt sol.meqn)⟩ := by
    rw [roundTrip, write_ascii]
    simp only [hqf, pyBind_pure]
    rw [hg0] at hread ⊢
    simp only [pyBind_pure]
    rw [read_ascii, read_ascii_t]
    simp only [read_data_line, pyBind_pure, pyTrunc_natCast, Int.toNat_natCast]
    rw [← List.append_nil qf, hread []]
    simp only [pyBind_pure, List.map_cons]
  refine ⟨_, hrt, ?_, rfl, rfl, rfl, rfl, ?_⟩
  · exact hfmt sol.t
  · show List.Forall₂ _ sol.grids (sol.grids.map (patchOf fmt sol.meqn))
    rw [List.forall₂_map_right_iff, List.forall₂_same]
    intro g hg
    exact ⟨rfl, forall2_cellsOf fmt sol.meqn g hfmt⟩

/-- C2 (witness): the amended round-trip theorem applied to the concrete
scenario-B frame (one 2-D patch, `meqn = 1`) with the identity text layer. -/
theorem claim_C2_witness :
    ∃ fr, roundTrip id solB = pyPure fr
      ∧ |fr.t - solB.t| ≤ tol * |solB.t|
      ∧ fr.meqn = (solB.meqn : ℤ) ∧ fr.ngrids = (solB.grids.length : ℤ)
      ∧ fr.maux = (solB.maux : ℤ) ∧ fr.ndim = (solB.ndim : ℤ)
      ∧ List.Forall₂ (fun g p => p = patchOf id solB.meqn g
          ∧ List.Forall₂ (List.Forall₂ (fun a b => |a - b| ≤ tol * |b|))
              p.cells (cellsOf id solB.meqn g)) solB.grids fr.patches :=
  claim_C2_amended id solB
    (fun x => by
      simp only [id_eq, sub_self, abs_zero, tol]
      positivity)
    (by simp [solB])
    (fun g hg => by
      rw [show solB.grids = [gridB] from rfl, List.mem_singleton] at hg
      subst hg
      rfl)
    (Or.inr rfl)
    (Nat.le_refl 1)

end GeoClaw
